import Mathlib

/-!
Radeon GEM buffer objects (`libdrm/radeon/radeon_bo_gem.c`).

A shallow embedding of the GEM back end of the radeon buffer-object manager.

* C objects are records; the C functions become pure functions that return the
  value returned by the C function, the object as it is left in memory, and the
  list of library, system and device calls the function issued, in order.
* The kernel and the C library are an explicit `World`: every call whose result
  the code reads is answered by a function of the whole call history up to and
  including that call, so a device may answer the same request differently at
  different times.
* `uint32_t` values and pointers are natural numbers, `NULL` is `0`; a wider
  value that is stored in a `uint32_t` field is reduced modulo `2 ^ 32`.  The C
  `int` counter `map_count` is an exact integer: signed overflow is undefined
  in C, so no wrap-around is modelled for it.  The `unsigned` reference count
  wraps modulo `2 ^ 32`.
-/

set_option linter.unusedVariables false

namespace RadeonBoGem

/-- Manager record `struct radeon_bo_manager`: the code only ever reads the
device file descriptor `fd` from it. -/
structure radeon_bo_manager where
  fd : Int
deriving DecidableEq, Repr

/-- Modelled from the spec: `struct radeon_bo` is declared in `radeon_bo.h`,
which is not among the sources.  The fields are the ones the code accesses:
the back-reference `bom` (a pointer), the kernel `handle`, `size`, `alignment`,
`domains`, `flags`, the reference count `cref` and the mapped pointer `ptr`. -/
structure radeon_bo where
  bom : Nat
  handle : Nat
  size : Nat
  alignment : Nat
  domains : Nat
  flags : Nat
  cref : Nat
  ptr : Nat
deriving DecidableEq, Repr

/-- Record `struct radeon_bo_gem`: the base object, the global name and the
mapping counter. -/
structure radeon_bo_gem where
  base : radeon_bo
  name : Nat
  map_count : Int
deriving DecidableEq, Repr

/-- Memory image of a `struct radeon_bo_gem` whose bytes are all zero, as left
by `calloc(1, sizeof ...)` and by `memset(bo_gem, 0, sizeof ...)`. -/
def zeroed : radeon_bo_gem :=
  { base := { bom := 0, handle := 0, size := 0, alignment := 0, domains := 0,
              flags := 0, cref := 0, ptr := 0 },
    name := 0, map_count := 0 }

/-- Protection bit `PROT_READ` of `sys/mman.h`. -/
def PROT_READ : Nat := 1

/-- Protection bit `PROT_WRITE` of `sys/mman.h`. -/
def PROT_WRITE : Nat := 2

/-- Flag `MAP_SHARED` of `sys/mman.h`. -/
def MAP_SHARED : Nat := 1

/-- Error number `EBUSY` of `errno.h`. -/
def EBUSY : Int := 16

/-- Calls that leave the functions of this file, with the arguments they carry.
`free` records the memory image of the block at the moment it is released, and
`fprintf` the integer arguments of a diagnostic line written to `stderr`. -/
inductive Call where
  | calloc
  | free (image : radeon_bo_gem)
  | fprintf (args : List Int)
  | gem_open (fd : Int) (name : Nat)
  | gem_create (fd : Int) (size alignment initial_domain flags handle : Nat)
  | gem_close (fd : Int) (handle : Nat)
  | gem_mmap (fd : Int) (handle offset size : Nat)
  | mmap (addr length prot flags : Nat) (fd : Int) (offset : Nat)
  | munmap (addr length : Nat)
  | gem_wait_idle (fd : Int) (handle : Nat)
  | gem_set_domain (fd : Int) (handle read_domains write_domain : Nat)
deriving DecidableEq, Repr

/-- Modelled from the spec: `struct drm_gem_open` is declared in `drm.h`, which
is not among the sources.  The answer to `DRM_IOCTL_GEM_OPEN` is the status `r`
and the two outputs, the 32-bit kernel handle and the 64-bit size of the
object. -/
structure gem_open_out where
  r : Int
  handle : Nat
  size : Nat
deriving DecidableEq, Repr

/-- Answer to `DRM_RADEON_GEM_CREATE`: the status and the `handle` field of the
argument block after the call. -/
structure gem_create_out where
  r : Int
  handle : Nat
deriving DecidableEq, Repr

/-- Answer to `DRM_RADEON_GEM_MMAP`: the status and the `addr_ptr` field of the
argument block after the call. -/
structure gem_mmap_out where
  r : Int
  addr_ptr : Nat
deriving DecidableEq, Repr

/-- Result of `mmap`: an address, or `MAP_FAILED` together with `errno`. -/
inductive MmapResult where
  | ok (ptr : Nat)
  | MAP_FAILED (errno : Nat)
deriving DecidableEq, Repr

/-- Everything outside the functions of this file.  `bom_mem` is the memory that
holds the manager records, addressed by pointer.  Each other field answers one
kind of call, given the history of calls up to and including the call that is
being answered. -/
structure World where
  bom_mem : Nat → radeon_bo_manager
  calloc_ok : List Call → Bool
  gem_open : List Call → gem_open_out
  gem_create : List Call → gem_create_out
  gem_mmap : List Call → gem_mmap_out
  mmap : List Call → MmapResult
  gem_wait_idle : List Call → Int
  gem_set_domain : List Call → Int

/-- Conversion of an unsigned value to `uint32_t`, as done by an assignment to a
32-bit field: the value is reduced modulo `2 ^ 32`. -/
def to_uint32 (n : Nat) : Nat := n % 2 ^ 32

/-- Increment of a C `unsigned` (32 bits): `c++`. -/
def uint_inc (c : Nat) : Nat := (c + 1) % 2 ^ 32

/-- Decrement of a C `unsigned` (32 bits): `c--`, which wraps from 0 to
`2 ^ 32 - 1`. -/
def uint_dec (c : Nat) : Nat := if c = 0 then 2 ^ 32 - 1 else (c - 1) % 2 ^ 32

/-- Function `bo_ref` of the source: its body is empty. -/
def bo_ref (bo : radeon_bo_gem) : radeon_bo_gem := bo

/-- Modelled from the spec: `radeon_bo_ref` is defined in `radeon_bo.h`, which is
not among the sources.  Following `acquire_reference` it increments the
reference count (an unsigned 32-bit counter) and then calls the `bo_ref` entry
of the manager's function table. -/
def radeon_bo_ref (bo : radeon_bo_gem) : radeon_bo_gem :=
  bo_ref { bo with base := { bo.base with cref := uint_inc bo.base.cref } }

/-- Value returned by `bo_open` (`none` is `NULL`) and the calls it issued. -/
structure OpenResult where
  ret : Option radeon_bo_gem
  calls : List Call
deriving DecidableEq, Repr

/-- Function `bo_open` of the source.  `hist` is the call history before the
call; `handle` is the global name to open, or `0` for a fresh allocation.  On the
open-by-name path the 64-bit `open_arg.size` is assigned to the 32-bit field
`bo->base.size`, which keeps its low 32 bits. -/
def bo_open (w : World) (hist : List Call)
    (bom handle size alignment domains flags : Nat) : OpenResult :=
  let c0 := [Call.calloc]
  if w.calloc_ok (hist ++ c0) = false then
    { ret := none, calls := c0 }
  else
    let bo : radeon_bo_gem :=
      { zeroed with
        base := { zeroed.base with
                  bom := bom, handle := 0, size := size, alignment := alignment,
                  domains := domains, flags := flags, ptr := 0 },
        map_count := 0 }
    if handle ≠ 0 then
      let c1 := c0 ++ [Call.gem_open (w.bom_mem bom).fd handle]
      let open_arg := w.gem_open (hist ++ c1)
      if open_arg.r ≠ 0 then
        { ret := none, calls := c1 ++ [Call.free bo] }
      else
        let bo1 : radeon_bo_gem :=
          { bo with
            base := { bo.base with handle := open_arg.handle,
                                   size := to_uint32 open_arg.size },
            name := handle }
        { ret := some (radeon_bo_ref bo1), calls := c1 }
    else
      let c1 := c0 ++ [Call.gem_create (w.bom_mem bom).fd size alignment bo.base.domains 0 0]
      let args := w.gem_create (hist ++ c1)
      let bo1 : radeon_bo_gem := { bo with base := { bo.base with handle := args.handle } }
      if args.r ≠ 0 then
        { ret := none,
          calls := c1 ++ [Call.fprintf [], Call.fprintf [(size : Int)],
                          Call.fprintf [(alignment : Int)],
                          Call.fprintf [(bo1.base.domains : Int)], Call.free bo1] }
      else
        { ret := some (radeon_bo_ref bo1), calls := c1 }

/-- Function `bo_unref` of the source.  The argument and the result are
pointers: `none` is `NULL`. -/
def bo_unref (w : World) (bo : Option radeon_bo_gem) : OpenResult :=
  match bo with
  | none => { ret := none, calls := [] }
  | some b =>
    if b.base.cref ≠ 0 then
      { ret := some b, calls := [] }
    else
      let c0 := if b.map_count ≠ 0 then [Call.munmap b.base.ptr b.base.size] else []
      { ret := none,
        calls := c0 ++ [Call.gem_close (w.bom_mem b.base.bom).fd b.base.handle,
                        Call.free zeroed] }

/-- Modelled from the spec: `radeon_bo_unref` is defined in `radeon_bo.h`, which
is not among the sources.  Following `release_reference` it decrements the
reference count (an unsigned 32-bit counter) and then calls the `bo_unref`
entry of the manager's function table. -/
def radeon_bo_unref (w : World) (bo : radeon_bo_gem) : OpenResult :=
  bo_unref w
    (some { bo with base := { bo.base with cref := uint_dec bo.base.cref } })

/-- Outcome of a function that returns an `int` and works on an object: the
returned value, the object afterwards, and the calls issued. -/
structure IntResult where
  ret : Int
  bo : radeon_bo_gem
  calls : List Call
deriving DecidableEq, Repr

/-- Function `bo_map` of the source.  The ioctl writes only `addr_ptr` back into
the argument block, so the length passed to `mmap` is the object's size. -/
def bo_map (w : World) (hist : List Call) (bo : radeon_bo_gem) (write : Int) : IntResult :=
  let old := bo.map_count
  let bo1 : radeon_bo_gem := { bo with map_count := bo.map_count + 1 }
  if old ≠ 0 then
    { ret := 0, bo := bo1, calls := [] }
  else
    let bo2 : radeon_bo_gem := { bo1 with base := { bo1.base with ptr := 0 } }
    let fd := (w.bom_mem bo2.base.bom).fd
    let c1 := [Call.gem_mmap fd bo2.base.handle 0 bo2.base.size]
    let args := w.gem_mmap (hist ++ c1)
    if args.r ≠ 0 then
      { ret := args.r, bo := bo2,
        calls := c1 ++ [Call.fprintf [(bo2.base.handle : Int), args.r]] }
    else
      let c2 := c1 ++ [Call.mmap 0 bo2.base.size (PROT_READ ||| PROT_WRITE) MAP_SHARED
                          fd args.addr_ptr]
      match w.mmap (hist ++ c2) with
      | MmapResult.MAP_FAILED errno => { ret := -(errno : Int), bo := bo2, calls := c2 }
      | MmapResult.ok ptr =>
        { ret := args.r, bo := { bo2 with base := { bo2.base with ptr := ptr } }, calls := c2 }

/-- Function `bo_unmap` of the source. -/
def bo_unmap (bo : radeon_bo_gem) : IntResult :=
  let bo1 : radeon_bo_gem := { bo with map_count := bo.map_count - 1 }
  if bo1.map_count > 0 then
    { ret := 0, bo := bo1, calls := [] }
  else
    { ret := 0, bo := { bo1 with base := { bo1.base with ptr := 0 } },
      calls := [Call.munmap bo1.base.ptr bo1.base.size] }

/-- Outcome of a function that returns a `uint32_t` and is handed an object: the
returned value, the object afterwards, and the calls issued. -/
structure NameResult where
  ret : Nat
  bo : radeon_bo_gem
  calls : List Call
deriving DecidableEq, Repr

/-- Function `radeon_gem_name_bo` of the source: it reads the `name` field and
does nothing else. -/
def radeon_gem_name_bo (bo : radeon_bo_gem) : NameResult :=
  { ret := bo.name, bo := bo, calls := [] }

/-- Loop `do ... while (ret == -EBUSY)` of `bo_wait`, for the request `c`.  Every
round issues `c` and reads the answer; the loop is run for at most `fuel`
rounds, and `none` means that the device was still busy after `fuel` rounds.
The result is the last answer and the calls issued. -/
def bo_wait_loop (w : World) (c : Call) : Nat → List Call → Option (Int × List Call)
  | 0, _ => none
  | fuel + 1, hist =>
    if w.gem_wait_idle (hist ++ [c]) = -EBUSY then
      (bo_wait_loop w c fuel (hist ++ [c])).map (fun r => (r.1, c :: r.2))
    else
      some (w.gem_wait_idle (hist ++ [c]), [c])

/-- Function `bo_wait` of the source, with the loop bounded by `fuel` rounds. -/
def bo_wait (w : World) (fuel : Nat) (hist : List Call) (bo : radeon_bo_gem) :
    Option IntResult :=
  (bo_wait_loop w (Call.gem_wait_idle (w.bom_mem bo.base.bom).fd bo.base.handle) fuel hist).map
    (fun r => { ret := r.1, bo := bo, calls := r.2 })

/-- Function `radeon_gem_set_domain` of the source. -/
def radeon_gem_set_domain (w : World) (hist : List Call) (bo : radeon_bo_gem)
    (read_domains write_domain : Nat) : IntResult :=
  let c := [Call.gem_set_domain (w.bom_mem bo.base.bom).fd bo.base.handle
              read_domains write_domain]
  { ret := w.gem_set_domain (hist ++ c), bo := bo, calls := c }

/-- One request of a client that maps and unmaps an object. -/
inductive MapOp where
  | map (write : Int)
  | unmap
deriving DecidableEq, Repr

/-- Perform one `MapOp` on an object. -/
def step (w : World) (hist : List Call) (bo : radeon_bo_gem) : MapOp → IntResult
  | MapOp.map write => bo_map w hist bo write
  | MapOp.unmap => bo_unmap bo

/-- Perform a sequence of `bo_map` and `bo_unmap` calls on one object, one after
the other, and collect the outcome of every call.  The history grows by the
calls each step issues. -/
def run (w : World) : List MapOp → List Call → radeon_bo_gem → List IntResult
  | [], _, _ => []
  | op :: ops, hist, bo =>
    let r := step w hist bo op
    r :: run w ops (hist ++ r.calls) r.bo

/-- Object left in memory after a sequence of `bo_map` and `bo_unmap` calls. -/
def final (w : World) : List MapOp → List Call → radeon_bo_gem → radeon_bo_gem
  | [], _, bo => bo
  | op :: ops, hist, bo =>
    let r := step w hist bo op
    final w ops (hist ++ r.calls) r.bo

/-- All calls issued by a sequence of outcomes, in order. -/
def issued : List IntResult → List Call
  | [] => []
  | r :: rs => r.calls ++ issued rs

/-- Returned value and issued calls of an outcome. -/
def observed (r : IntResult) : Int × List Call := (r.ret, r.calls)

/-- Number of `bo_map` calls minus number of `bo_unmap` calls in a sequence,
or `none` as soon as some prefix has unmapped more often than it has mapped. -/
def balance : List MapOp → Nat → Option Nat
  | [], n => some n
  | MapOp.map _ :: ops, n => balance ops (n + 1)
  | MapOp.unmap :: ops, n => if n = 0 then none else balance ops (n - 1)

/-- A sequence that never unmaps more often than it has mapped. -/
def never_underflows (ops : List MapOp) : Bool := (balance ops 0).isSome

/-- One request of a client that holds references to an object. -/
inductive RefOp where
  | ref
  | unref
deriving DecidableEq, Repr

/-- Outcome of one `RefOp`: the request, the reference count after the
adjustment made by the wrapper, the object afterwards (`none` once it is freed)
and the calls issued. -/
structure RefStep where
  op : RefOp
  count : Nat
  after : Option radeon_bo_gem
  calls : List Call
deriving DecidableEq, Repr

/-- Perform one `RefOp` on an object through the wrappers `radeon_bo_ref` and
`radeon_bo_unref`. -/
def ref_step (w : World) (bo : radeon_bo_gem) : RefOp → RefStep
  | RefOp.ref =>
    { op := RefOp.ref, count := (radeon_bo_ref bo).base.cref, after := some (radeon_bo_ref bo),
      calls := [] }
  | RefOp.unref =>
    { op := RefOp.unref, count := uint_dec bo.base.cref, after := (radeon_bo_unref w bo).ret,
      calls := (radeon_bo_unref w bo).calls }

/-- Perform a sequence of `radeon_bo_ref` and `radeon_bo_unref` calls on one
object.  Once the object is freed (`none`) nothing further can be done with it,
so the remaining requests are not performed. -/
def run_refs (w : World) : List RefOp → Option radeon_bo_gem → List RefStep
  | [], _ => []
  | _ :: _, none => []
  | op :: ops, some bo => ref_step w bo op :: run_refs w ops (ref_step w bo op).after

/-- Test for a `DRM_IOCTL_GEM_CLOSE` call. -/
def is_close : Call → Bool
  | Call.gem_close _ _ => true
  | _ => false

/-- Test for a `munmap` call. -/
def is_munmap : Call → Bool
  | Call.munmap _ _ => true
  | _ => false

/-- Test for an `mmap` call. -/
def is_mmap : Call → Bool
  | Call.mmap _ _ _ _ _ _ => true
  | _ => false

/-- Test for a `DRM_RADEON_GEM_MMAP` call. -/
def is_gem_mmap : Call → Bool
  | Call.gem_mmap _ _ _ _ => true
  | _ => false

/-- A world in which every call succeeds: the device hands out handle `7`, size
`8192` and mapping offset `4096`, and `mmap` returns address `65536`. -/
def good_world : World :=
  { bom_mem := fun _ => { fd := 3 },
    calloc_ok := fun _ => true,
    gem_open := fun _ => { r := 0, handle := 7, size := 8192 },
    gem_create := fun _ => { r := 0, handle := 7 },
    gem_mmap := fun _ => { r := 0, addr_ptr := 4096 },
    mmap := fun _ => MmapResult.ok 65536,
    gem_wait_idle := fun _ => 0,
    gem_set_domain := fun _ => 0 }

/-- A world like `good_world` whose `DRM_RADEON_GEM_MMAP` query fails with `-22`. -/
def query_fails : World := { good_world with gem_mmap := fun _ => { r := -22, addr_ptr := 0 } }

/-- A world like `good_world` whose `mmap` fails with `errno = 12`. -/
def mmap_fails : World := { good_world with mmap := fun _ => MmapResult.MAP_FAILED 12 }

/-- An object as `bo_open` leaves it after a fresh allocation in `good_world`. -/
def sample_bo : radeon_bo_gem :=
  { base := { bom := 1, handle := 7, size := 4096, alignment := 4096, domains := 2,
              flags := 0, cref := 1, ptr := 0 },
    name := 0, map_count := 0 }

/-- All calls issued by a sequence of reference requests, in order. -/
def ref_calls : List RefStep → List Call
  | [] => []
  | s :: ss => s.calls ++ ref_calls ss

/-- Test for a `DRM_RADEON_GEM_CREATE` call. -/
def is_gem_create : Call → Bool
  | Call.gem_create _ _ _ _ _ _ => true
  | _ => false

/-- The object `sample_bo` after one `bo_unmap` that no `bo_map` preceded and
after its last reference is dropped: `map_count = -1`, `cref = 0`. -/
def underflowed_bo : radeon_bo_gem :=
  { base := { bom := 1, handle := 7, size := 4096, alignment := 4096, domains := 2,
              flags := 0, cref := 0, ptr := 0 },
    name := 0, map_count := -1 }

/-- Number of times a sequence of requests brings the number of outstanding
mappings, which starts at `n`, from 1 down to 0. -/
def zero_returns : List MapOp → Nat → Nat
  | [], _ => 0
  | MapOp.map _ :: ops, n => zero_returns ops (n + 1)
  | MapOp.unmap :: ops, n => (if n = 1 then 1 else 0) + zero_returns ops (n - 1)

/-- Number of times a sequence of requests brings the number of outstanding
mappings, which starts at `n`, from 0 up to 1. -/
def zero_leaves : List MapOp → Nat → Nat
  | [], _ => 0
  | MapOp.map _ :: ops, n => (if n = 0 then 1 else 0) + zero_leaves ops (n + 1)
  | MapOp.unmap :: ops, n => zero_leaves ops (n - 1)

/-- A world like `good_world` whose device answers the first two calls of a
history with `-EBUSY` and every later one with 0. -/
def busy_twice : World :=
  { good_world with gem_wait_idle := fun h => if h.length < 3 then -EBUSY else 0 }

/-- An object like `sample_bo` whose kernel handle is 0. -/
def unallocated_bo : radeon_bo_gem :=
  { base := { bom := 1, handle := 0, size := 4096, alignment := 4096, domains := 2,
              flags := 0, cref := 1, ptr := 0 },
    name := 0, map_count := 0 }

/-- Two memory images of an object agree on every field other than `map_count`
and `ptr`: owning manager, kernel handle, size, alignment, domains, flags,
reference count and global name. -/
def same_identity (a b : radeon_bo_gem) : Prop :=
  a.base.bom = b.base.bom ∧ a.base.handle = b.base.handle ∧ a.base.size = b.base.size ∧
  a.base.alignment = b.base.alignment ∧ a.base.domains = b.base.domains ∧
  a.base.flags = b.base.flags ∧ a.base.cref = b.base.cref ∧ a.name = b.name

instance (a b : radeon_bo_gem) : Decidable (same_identity a b) := by
  unfold same_identity
  infer_instance

/-- A world like `good_world` whose device reports, for an object opened by
name, a size of `2 ^ 32 + 4096` bytes. -/
def huge_object : World :=
  { good_world with gem_open := fun _ => { r := 0, handle := 7, size := 2 ^ 32 + 4096 } }

/-! ## Basic facts about the embedding -/

theorem run_append (w : World) (a b : List MapOp) :
    ∀ (hist : List Call) (bo : radeon_bo_gem),
      run w (a ++ b) hist bo =
        run w a hist bo ++ run w b (hist ++ issued (run w a hist bo)) (final w a hist bo) := by
  induction a with
  | nil => intro hist bo; simp [run, final, issued]
  | cons op ops ih =>
    intro hist bo
    simp [run, final, issued, ih, List.append_assoc]

theorem final_append (w : World) (a b : List MapOp) :
    ∀ (hist : List Call) (bo : radeon_bo_gem),
      final w (a ++ b) hist bo =
        final w b (hist ++ issued (run w a hist bo)) (final w a hist bo) := by
  induction a with
  | nil => intro hist bo; simp [run, final, issued]
  | cons op ops ih =>
    intro hist bo
    simp [run, final, issued, ih, List.append_assoc]

theorem bo_map_nested (w : World) (hist : List Call) (bo : radeon_bo_gem) (write : Int)
    (h : bo.map_count ≠ 0) :
    bo_map w hist bo write =
      { ret := 0, bo := { bo with map_count := bo.map_count + 1 }, calls := [] } := by
  simp [bo_map, h]

theorem bo_unmap_nested (bo : radeon_bo_gem) (h : 1 < bo.map_count) :
    bo_unmap bo = { ret := 0, bo := { bo with map_count := bo.map_count - 1 }, calls := [] } := by
  have h1 : bo.map_count - 1 > 0 := by omega
  simp [bo_unmap, h1]

theorem bo_unmap_last (bo : radeon_bo_gem) (h : bo.map_count ≤ 1) :
    bo_unmap bo =
      { ret := 0,
        bo := { bo with map_count := bo.map_count - 1, base := { bo.base with ptr := 0 } },
        calls := [Call.munmap bo.base.ptr bo.base.size] } := by
  have h1 : ¬ (bo.map_count - 1 > 0) := by omega
  simp [bo_unmap, h1]

theorem run_maps_nested (w : World) (ws : List Int) :
    ∀ (hist : List Call) (bo : radeon_bo_gem), 0 < bo.map_count →
      (run w (ws.map MapOp.map) hist bo).map observed = List.replicate ws.length (0, []) ∧
      issued (run w (ws.map MapOp.map) hist bo) = [] ∧
      final w (ws.map MapOp.map) hist bo =
        { bo with map_count := bo.map_count + ws.length } := by
  induction ws with
  | nil => intro hist bo _; simp [run, final, issued]
  | cons x xs ih =>
    intro hist bo h
    have hne : bo.map_count ≠ 0 := by omega
    have hpos : 0 < ({ bo with map_count := bo.map_count + 1 } : radeon_bo_gem).map_count := by
      show 0 < bo.map_count + 1
      omega
    obtain ⟨h1, h2, h3⟩ := ih hist { bo with map_count := bo.map_count + 1 } hpos
    simp only [List.map_cons, run, final, issued, step, bo_map_nested w hist bo x hne,
      List.append_nil, List.length_cons, List.replicate_succ, observed] at h1 h2 h3 ⊢
    refine ⟨by simpa [observed] using h1, by simpa using h2, ?_⟩
    rw [h3]
    have e : bo.map_count + 1 + (xs.length : Int) = bo.map_count + ((xs.length : Int) + 1) := by
      omega
    simp [e]

theorem run_unmaps_nested (w : World) (k : Nat) :
    ∀ (hist : List Call) (bo : radeon_bo_gem), (k : Int) < bo.map_count →
      (run w (List.replicate k MapOp.unmap) hist bo).map observed = List.replicate k (0, []) ∧
      issued (run w (List.replicate k MapOp.unmap) hist bo) = [] ∧
      final w (List.replicate k MapOp.unmap) hist bo =
        { bo with map_count := bo.map_count - k } := by
  induction k with
  | zero => intro hist bo _; simp [run, final, issued]
  | succ n ih =>
    intro hist bo h
    have hgt : 1 < bo.map_count := by push_cast at h; omega
    have hlt : (n : Int) < ({ bo with map_count := bo.map_count - 1 } : radeon_bo_gem).map_count := by
      show (n : Int) < bo.map_count - 1
      push_cast at h
      omega
    obtain ⟨h1, h2, h3⟩ := ih hist { bo with map_count := bo.map_count - 1 } hlt
    simp only [List.replicate_succ, run, final, issued, step, bo_unmap_nested bo hgt,
      List.append_nil, List.map_cons, observed] at h1 h2 h3 ⊢
    refine ⟨by simpa [observed] using h1, by simpa using h2, ?_⟩
    rw [h3]
    have e : bo.map_count - 1 - (n : Int) = bo.map_count - ((n : Int) + 1) := by omega
    simp [e]

theorem bo_map_first_ok (w : World) (hist : List Call) (bo : radeon_bo_gem) (write : Int)
    (p : Nat) (h0 : bo.map_count = 0)
    (hq : (w.gem_mmap (hist ++ [Call.gem_mmap (w.bom_mem bo.base.bom).fd bo.base.handle 0
            bo.base.size])).r = 0)
    (hm : w.mmap (hist ++ [Call.gem_mmap (w.bom_mem bo.base.bom).fd bo.base.handle 0 bo.base.size,
            Call.mmap 0 bo.base.size (PROT_READ ||| PROT_WRITE) MAP_SHARED
              (w.bom_mem bo.base.bom).fd
              (w.gem_mmap (hist ++ [Call.gem_mmap (w.bom_mem bo.base.bom).fd bo.base.handle 0
                bo.base.size])).addr_ptr]) = MmapResult.ok p) :
    bo_map w hist bo write =
      { ret := 0,
        bo := { bo with map_count := 1, base := { bo.base with ptr := p } },
        calls := [Call.gem_mmap (w.bom_mem bo.base.bom).fd bo.base.handle 0 bo.base.size,
                  Call.mmap 0 bo.base.size (PROT_READ ||| PROT_WRITE) MAP_SHARED
                    (w.bom_mem bo.base.bom).fd
                    (w.gem_mmap (hist ++ [Call.gem_mmap (w.bom_mem bo.base.bom).fd
                      bo.base.handle 0 bo.base.size])).addr_ptr] } := by
  simp only [bo_map, h0, ne_eq, not_true_eq_false, if_false, hq, List.cons_append,
    List.nil_append, zero_add]
  rw [hm]

/-! ## Properties of the buffer-object operations -/

/-- C1: for every N >= 1 and every object that starts Unmapped (`map_count = 0`,
`ptr = NULL`), with a device whose offset query and `mmap` always succeed, N calls
of `bo_map` followed by N calls of `bo_unmap` all return 0; the first `bo_map`
issues the one `DRM_RADEON_GEM_MMAP` query and the one `mmap`, the last `bo_unmap`
issues the one `munmap`, no other call issues anything, and the object ends with
`map_count = 0` and `ptr = NULL`, that is, as it started. -/
theorem map_unmap_balanced (w : World) (hist : List Call) (bo : radeon_bo_gem)
    (ws : List Int) (hN : 1 ≤ ws.length) (h0 : bo.map_count = 0) (hp : bo.base.ptr = 0)
    (hq : ∀ h, (w.gem_mmap h).r = 0) (hm : ∀ h, ∃ p, w.mmap h = MmapResult.ok p) :
    ∃ p,
      w.mmap (hist ++ [Call.gem_mmap (w.bom_mem bo.base.bom).fd bo.base.handle 0 bo.base.size,
            Call.mmap 0 bo.base.size (PROT_READ ||| PROT_WRITE) MAP_SHARED
              (w.bom_mem bo.base.bom).fd
              (w.gem_mmap (hist ++ [Call.gem_mmap (w.bom_mem bo.base.bom).fd bo.base.handle 0
                bo.base.size])).addr_ptr]) = MmapResult.ok p ∧
      (run w (ws.map MapOp.map ++ List.replicate ws.length MapOp.unmap) hist bo).map observed =
        (0, [Call.gem_mmap (w.bom_mem bo.base.bom).fd bo.base.handle 0 bo.base.size,
             Call.mmap 0 bo.base.size (PROT_READ ||| PROT_WRITE) MAP_SHARED
               (w.bom_mem bo.base.bom).fd
               (w.gem_mmap (hist ++ [Call.gem_mmap (w.bom_mem bo.base.bom).fd bo.base.handle 0
                 bo.base.size])).addr_ptr])
          :: List.replicate (2 * ws.length - 2) (0, [])
          ++ [(0, [Call.munmap p bo.base.size])] ∧
      final w (ws.map MapOp.map ++ List.replicate ws.length MapOp.unmap) hist bo = bo ∧
      (final w (ws.map MapOp.map ++ List.replicate ws.length MapOp.unmap) hist bo).map_count = 0 ∧
      (final w (ws.map MapOp.map ++ List.replicate ws.length MapOp.unmap) hist bo).base.ptr = 0 := by
  cases ws with
  | nil => simp at hN
  | cons x xs =>
    obtain ⟨p, hmp⟩ := hm (hist ++ [Call.gem_mmap (w.bom_mem bo.base.bom).fd bo.base.handle 0
      bo.base.size, Call.mmap 0 bo.base.size (PROT_READ ||| PROT_WRITE) MAP_SHARED
        (w.bom_mem bo.base.bom).fd
        (w.gem_mmap (hist ++ [Call.gem_mmap (w.bom_mem bo.base.bom).fd bo.base.handle 0
          bo.base.size])).addr_ptr])
    have hfirst := bo_map_first_ok w hist bo x p h0 (hq _) hmp
    refine ⟨p, hmp, ?_⟩
    generalize hc : [Call.gem_mmap (w.bom_mem bo.base.bom).fd bo.base.handle 0 bo.base.size,
        Call.mmap 0 bo.base.size (PROT_READ ||| PROT_WRITE) MAP_SHARED
          (w.bom_mem bo.base.bom).fd
          (w.gem_mmap (hist ++ [Call.gem_mmap (w.bom_mem bo.base.bom).fd bo.base.handle 0
            bo.base.size])).addr_ptr] = c at hfirst ⊢
    -- the object after the first `bo_map`
    generalize hb1 : ({ bo with map_count := 1, base := { bo.base with ptr := p } } :
      radeon_bo_gem) = b1 at hfirst
    have hb1c : b1.map_count = 1 := by rw [← hb1]
    have hb1pos : 0 < b1.map_count := by omega
    obtain ⟨m1, m2, m3⟩ := run_maps_nested w xs (hist ++ c) b1 hb1pos
    -- the object after all `bo_map` calls
    generalize hb2 : ({ b1 with map_count := b1.map_count + xs.length } : radeon_bo_gem) = b2
      at m3
    have hb2c : b2.map_count = 1 + xs.length := by rw [← hb2, ← hb1c]
    have hlt : (xs.length : Int) < b2.map_count := by omega
    obtain ⟨u1, u2, u3⟩ := run_unmaps_nested w xs.length (hist ++ c) b2 hlt
    -- the object before the last `bo_unmap`
    generalize hb3 : ({ b2 with map_count := b2.map_count - xs.length } : radeon_bo_gem) = b3
      at u3
    have hb3c : b3.map_count = 1 := by rw [← hb3]; show b2.map_count - xs.length = 1; omega
    have hlast := bo_unmap_last b3 (by omega)
    have hb3p : b3.base.ptr = p := by rw [← hb3, ← hb2, ← hb1]
    have hb3s : b3.base.size = bo.base.size := by rw [← hb3, ← hb2, ← hb1]
    have hend : ({ b3 with map_count := b3.map_count - 1, base := { b3.base with ptr := 0 } } :
        radeon_bo_gem) = bo := by
      rw [hb3c, ← hb3, ← hb2, ← hb1]
      cases bo with
      | mk base name map_count =>
        cases base
        simp_all
    have hops : List.replicate (xs.length + 1) MapOp.unmap =
        List.replicate xs.length MapOp.unmap ++ [MapOp.unmap] := by
      exact List.replicate_succ' _ _
    have hl : (x :: xs).map MapOp.map ++ List.replicate (x :: xs).length MapOp.unmap =
        MapOp.map x :: (xs.map MapOp.map ++
          (List.replicate xs.length MapOp.unmap ++ [MapOp.unmap])) := by
      rw [List.length_cons, hops, List.map_cons, List.cons_append]
    have hrun : run w ((x :: xs).map MapOp.map ++ List.replicate (x :: xs).length MapOp.unmap)
        hist bo =
        { ret := 0, bo := b1, calls := c } ::
          (run w (xs.map MapOp.map) (hist ++ c) b1 ++
            (run w (List.replicate xs.length MapOp.unmap) (hist ++ c) b2 ++
              [{ ret := 0, bo := bo, calls := [Call.munmap p bo.base.size] }])) := by
      rw [hl, run, step, hfirst]
      show _ :: run w _ (hist ++ c) b1 = _
      rw [run_append, m2, m3, List.append_nil, run_append, u2, u3, List.append_nil]
      rw [run, step, hlast, hend, hb3p, hb3s, run]
    have hfin : final w ((x :: xs).map MapOp.map ++ List.replicate (x :: xs).length MapOp.unmap)
        hist bo = bo := by
      rw [hl, final, step, hfirst]
      show final w _ (hist ++ c) b1 = _
      rw [final_append, m2, m3, List.append_nil, final_append, u2, u3, List.append_nil]
      rw [final, step, hlast]
      show final w [] _ _ = bo
      rw [final, hend]
    refine ⟨?_, hfin, ?_, ?_⟩
    · rw [hrun]
      simp only [List.map_cons, List.map_append, m1, u1, observed, List.map_nil, List.length_cons]
      have e : 2 * (xs.length + 1) - 2 = xs.length + xs.length := by omega
      rw [e, List.replicate_add, List.cons_append, List.append_assoc]
    · rw [hfin, h0]
    · rw [hfin, hp]

/-- Instance of C1 with N = 2 on `sample_bo` in `good_world`. -/
theorem map_unmap_balanced_witness :
    sample_bo.map_count = 0 ∧ sample_bo.base.ptr = 0 ∧
    (run good_world [MapOp.map 1, MapOp.map 0, MapOp.unmap, MapOp.unmap] [] sample_bo).map
        observed =
      [(0, [Call.gem_mmap 3 7 0 4096, Call.mmap 0 4096 3 1 3 4096]), (0, []), (0, []),
       (0, [Call.munmap 65536 4096])] ∧
    final good_world [MapOp.map 1, MapOp.map 0, MapOp.unmap, MapOp.unmap] [] sample_bo =
      sample_bo := by
  obtain ⟨p, h1, h2, h3, _, _⟩ :=
    map_unmap_balanced good_world [] sample_bo [1, 0] (by decide) rfl rfl (fun _ => rfl)
      (fun _ => ⟨65536, rfl⟩)
  have e : MmapResult.ok 65536 = MmapResult.ok p := h1
  have hp : p = 65536 := (MmapResult.ok.inj e).symm
  subst hp
  exact ⟨rfl, rfl, h2, h3⟩

theorem bo_map_count (w : World) (hist : List Call) (bo : radeon_bo_gem) (write : Int) :
    (bo_map w hist bo write).bo.map_count = bo.map_count + 1 := by
  by_cases h0 : bo.map_count = 0
  · by_cases hr : (w.gem_mmap (hist ++ [Call.gem_mmap (w.bom_mem bo.base.bom).fd bo.base.handle 0
        bo.base.size])).r = 0
    · simp only [bo_map, h0, ne_eq, not_true_eq_false, if_false, hr, List.cons_append,
        List.nil_append, zero_add]
      split <;> rfl
    · simp [bo_map, h0, hr]
  · rw [bo_map_nested w hist bo write h0]

theorem bo_unmap_count (bo : radeon_bo_gem) : (bo_unmap bo).bo.map_count = bo.map_count - 1 := by
  rcases lt_or_le 1 bo.map_count with h | h
  · rw [bo_unmap_nested bo h]
  · rw [bo_unmap_last bo h]

/-- The part of C2 that holds for every device: along a sequence that never
unmaps more often than it has mapped, `map_count` is the number of `bo_map`
calls minus the number of `bo_unmap` calls, so it is never negative. -/
theorem map_count_tracks_balance (w : World) (ops : List MapOp) :
    ∀ (n m : Nat) (hist : List Call) (bo : radeon_bo_gem),
      balance ops n = some m → bo.map_count = n →
      (final w ops hist bo).map_count = m ∧ 0 ≤ (final w ops hist bo).map_count := by
  induction ops with
  | nil =>
    intro n m hist bo hb hc
    simp only [balance, Option.some.injEq] at hb
    subst hb
    rw [final, hc]
    exact ⟨rfl, Int.natCast_nonneg n⟩
  | cons op ops ih =>
    intro n m hist bo hb hc
    cases op with
    | map write =>
      rw [balance] at hb
      rw [final]
      refine ih (n + 1) m _ _ hb ?_
      show (bo_map w hist bo write).bo.map_count = ((n + 1 : Nat) : Int)
      rw [bo_map_count, hc]
      push_cast
      rfl
    | unmap =>
      rw [balance] at hb
      by_cases hn : n = 0
      · rw [if_pos hn] at hb
        exact Option.noConfusion hb
      · rw [if_neg hn] at hb
        rw [final]
        refine ih (n - 1) m _ _ hb ?_
        show (bo_unmap bo).bo.map_count = ((n - 1 : Nat) : Int)
        rw [bo_unmap_count, hc]
        omega

/-- The part of C2 that holds when the device does not fail: if every offset
query succeeds and every `mmap` returns a non-`NULL` address, then "ptr is
non-NULL if and only if map_count > 0" is preserved by every sequence that never
unmaps more often than it has mapped. -/
theorem mapping_invariant_of_successful_device (w : World)
    (hq : ∀ h, (w.gem_mmap h).r = 0) (hm : ∀ h, ∃ p, p ≠ 0 ∧ w.mmap h = MmapResult.ok p)
    (ops : List MapOp) :
    ∀ (n m : Nat) (hist : List Call) (bo : radeon_bo_gem),
      balance ops n = some m → bo.map_count = n → (bo.base.ptr ≠ 0 ↔ 0 < bo.map_count) →
      ((final w ops hist bo).base.ptr ≠ 0 ↔ 0 < (final w ops hist bo).map_count) := by
  induction ops with
  | nil => intro n m hist bo _ _ hi; rw [final]; exact hi
  | cons op ops ih =>
    intro n m hist bo hb hc hi
    cases op with
    | map write =>
      rw [balance] at hb
      rw [final]
      have hcount : (bo_map w hist bo write).bo.map_count = ((n + 1 : Nat) : Int) := by
        rw [bo_map_count, hc]
        push_cast
        rfl
      refine ih (n + 1) m _ _ hb hcount ?_
      show ((bo_map w hist bo write).bo.base.ptr ≠ 0 ↔ 0 < (bo_map w hist bo write).bo.map_count)
      by_cases h0 : bo.map_count = 0
      · obtain ⟨p, hp0, hp⟩ := hm (hist ++ [Call.gem_mmap (w.bom_mem bo.base.bom).fd
          bo.base.handle 0 bo.base.size, Call.mmap 0 bo.base.size (PROT_READ ||| PROT_WRITE)
            MAP_SHARED (w.bom_mem bo.base.bom).fd
            (w.gem_mmap (hist ++ [Call.gem_mmap (w.bom_mem bo.base.bom).fd bo.base.handle 0
              bo.base.size])).addr_ptr])
        rw [bo_map_first_ok w hist bo write p h0 (hq _) hp]
        exact ⟨fun _ => Int.one_pos, fun _ => hp0⟩
      · rw [bo_map_nested w hist bo write h0]
        show (bo.base.ptr ≠ 0 ↔ 0 < bo.map_count + 1)
        have hpos : 0 < bo.map_count := by omega
        exact ⟨fun _ => by omega, fun _ => hi.mpr hpos⟩
    | unmap =>
      rw [balance] at hb
      by_cases hn : n = 0
      · rw [if_pos hn] at hb
        exact Option.noConfusion hb
      · rw [if_neg hn] at hb
        rw [final]
        have hcount : (bo_unmap bo).bo.map_count = ((n - 1 : Nat) : Int) := by
          rw [bo_unmap_count, hc]
          omega
        refine ih (n - 1) m _ _ hb hcount ?_
        show ((bo_unmap bo).bo.base.ptr ≠ 0 ↔ 0 < (bo_unmap bo).bo.map_count)
        rcases lt_or_le 1 bo.map_count with h | h
        · rw [bo_unmap_nested bo h]
          show (bo.base.ptr ≠ 0 ↔ 0 < bo.map_count - 1)
          have hpos : 0 < bo.map_count := by omega
          exact ⟨fun _ => by omega, fun _ => hi.mpr hpos⟩
        · rw [bo_unmap_last bo h]
          show ((0 : Nat) ≠ 0 ↔ 0 < bo.map_count - 1)
          exact ⟨fun hne => absurd rfl hne, fun hlt => by omega⟩

/-- C2 (the code at the failing input): a fresh object is created by a successful
`bo_open`, and the device then rejects the `DRM_RADEON_GEM_MMAP` query of the
first `bo_map`.  The sequence never unmaps more often than it maps, `bo_map`
returns the error `-22`, and the object is left with `map_count = 1` and
`ptr = NULL`, so "ptr is non-NULL if and only if map_count > 0" does not hold in
this reachable state. -/
theorem failed_map_breaks_mapping_invariant :
    (bo_open query_fails [] 1 0 4096 4096 2 0).ret = some sample_bo ∧
    never_underflows [MapOp.map 1] = true ∧
    (run query_fails [MapOp.map 1] (bo_open query_fails [] 1 0 4096 4096 2 0).calls
        sample_bo).map IntResult.ret = [-22] ∧
    (final query_fails [MapOp.map 1] (bo_open query_fails [] 1 0 4096 4096 2 0).calls
        sample_bo).map_count = 1 ∧
    (final query_fails [MapOp.map 1] (bo_open query_fails [] 1 0 4096 4096 2 0).calls
        sample_bo).base.ptr = 0 ∧
    ¬ ((final query_fails [MapOp.map 1] (bo_open query_fails [] 1 0 4096 4096 2 0).calls
          sample_bo).base.ptr ≠ 0 ↔
        0 < (final query_fails [MapOp.map 1] (bo_open query_fails [] 1 0 4096 4096 2 0).calls
          sample_bo).map_count) := by
  decide

/-- C3: for every object with `map_count = 0`, if the 0 -> 1 transition of `bo_map`
fails, the object is left with `map_count = 1` and `ptr = NULL` and the returned
value is the nonzero error: when the `DRM_RADEON_GEM_MMAP` query answers
`r != 0`, `bo_map` returns that `r` and issues no `mmap` (only the query and the
diagnostic); when the query succeeds and `mmap` returns `MAP_FAILED` with a
positive `errno`, `bo_map` returns `-errno`. -/
theorem bo_map_failure (w : World) (hist : List Call) (bo : radeon_bo_gem) (write : Int)
    (h0 : bo.map_count = 0) :
    ((w.gem_mmap (hist ++ [Call.gem_mmap (w.bom_mem bo.base.bom).fd bo.base.handle 0
          bo.base.size])).r ≠ 0 →
      (bo_map w hist bo write).ret =
        (w.gem_mmap (hist ++ [Call.gem_mmap (w.bom_mem bo.base.bom).fd bo.base.handle 0
          bo.base.size])).r ∧
      (bo_map w hist bo write).ret ≠ 0 ∧
      (bo_map w hist bo write).calls =
        [Call.gem_mmap (w.bom_mem bo.base.bom).fd bo.base.handle 0 bo.base.size,
         Call.fprintf [(bo.base.handle : Int),
           (w.gem_mmap (hist ++ [Call.gem_mmap (w.bom_mem bo.base.bom).fd bo.base.handle 0
             bo.base.size])).r]] ∧
      (∀ c ∈ (bo_map w hist bo write).calls, is_mmap c = false) ∧
      (bo_map w hist bo write).bo.map_count = 1 ∧
      (bo_map w hist bo write).bo.base.ptr = 0) ∧
    (∀ errno : Nat,
      (w.gem_mmap (hist ++ [Call.gem_mmap (w.bom_mem bo.base.bom).fd bo.base.handle 0
          bo.base.size])).r = 0 →
      w.mmap (hist ++ [Call.gem_mmap (w.bom_mem bo.base.bom).fd bo.base.handle 0 bo.base.size,
          Call.mmap 0 bo.base.size (PROT_READ ||| PROT_WRITE) MAP_SHARED
            (w.bom_mem bo.base.bom).fd
            (w.gem_mmap (hist ++ [Call.gem_mmap (w.bom_mem bo.base.bom).fd bo.base.handle 0
              bo.base.size])).addr_ptr]) = MmapResult.MAP_FAILED errno →
      0 < errno →
      (bo_map w hist bo write).ret = -(errno : Int) ∧
      (bo_map w hist bo write).ret ≠ 0 ∧
      (bo_map w hist bo write).bo.map_count = 1 ∧
      (bo_map w hist bo write).bo.base.ptr = 0) := by
  refine ⟨?_, ?_⟩
  · intro hr
    simp [bo_map, h0, hr, is_mmap]
  · intro errno hr hm he
    simp only [bo_map, h0, ne_eq, not_true_eq_false, if_false, hr, List.cons_append,
      List.nil_append, zero_add]
    rw [hm]
    refine ⟨rfl, ?_, rfl, rfl⟩
    show -(errno : Int) ≠ 0
    omega

/-- Instance of C3 on `sample_bo`: the query fails in `query_fails`, `mmap` fails
in `mmap_fails`. -/
theorem bo_map_failure_witness :
    ((bo_map query_fails [] sample_bo 1).ret = -22 ∧
      (bo_map query_fails [] sample_bo 1).bo.map_count = 1 ∧
      (bo_map query_fails [] sample_bo 1).bo.base.ptr = 0) ∧
    ((bo_map mmap_fails [] sample_bo 1).ret = -12 ∧
      (bo_map mmap_fails [] sample_bo 1).bo.map_count = 1 ∧
      (bo_map mmap_fails [] sample_bo 1).bo.base.ptr = 0) := by
  have hq := (bo_map_failure query_fails [] sample_bo 1 rfl).1 (by decide)
  have hm := (bo_map_failure mmap_fails [] sample_bo 1 rfl).2 12 rfl rfl (by decide)
  exact ⟨⟨hq.1, hq.2.2.2.2.1, hq.2.2.2.2.2⟩, ⟨hm.1, hm.2.2.1, hm.2.2.2⟩⟩

/-- C4: `bo_unmap` returns 0 in every state; for an object with
`map_count = n >= 1` it sets `map_count` to `n - 1`; if `n - 1 > 0` it issues no
call and leaves `ptr` unchanged; if `n - 1 = 0` it issues exactly one
`munmap(ptr, size)` and sets `ptr = NULL`.  No other field changes. -/
theorem bo_unmap_counts_down (bo : radeon_bo_gem) (n : Int) (hn : 1 ≤ n)
    (hc : bo.map_count = n) :
    (∀ b : radeon_bo_gem, (bo_unmap b).ret = 0) ∧
    (bo_unmap bo).ret = 0 ∧
    (bo_unmap bo).bo.map_count = n - 1 ∧
    (0 < n - 1 → (bo_unmap bo).calls = [] ∧ (bo_unmap bo).bo.base = bo.base) ∧
    (n - 1 = 0 →
      (bo_unmap bo).calls = [Call.munmap bo.base.ptr bo.base.size] ∧
      (bo_unmap bo).bo.base = { bo.base with ptr := 0 }) ∧
    (bo_unmap bo).bo.name = bo.name := by
  have hall : ∀ b : radeon_bo_gem, (bo_unmap b).ret = 0 := by
    intro b
    rcases lt_or_le 1 b.map_count with h | h
    · rw [bo_unmap_nested b h]
    · rw [bo_unmap_last b h]
  refine ⟨hall, hall bo, ?_, ?_, ?_, ?_⟩
  · rcases lt_or_le 1 bo.map_count with h | h
    · rw [bo_unmap_nested bo h]
      exact congrArg (fun x => x - 1) hc
    · rw [bo_unmap_last bo h]
      exact congrArg (fun x => x - 1) hc
  · intro hpos
    have h1 : 1 < bo.map_count := by omega
    rw [bo_unmap_nested bo h1]
    exact ⟨rfl, rfl⟩
  · intro hz
    have h1 : bo.map_count ≤ 1 := by omega
    rw [bo_unmap_last bo h1]
    exact ⟨rfl, rfl⟩
  · rcases lt_or_le 1 bo.map_count with h | h
    · rw [bo_unmap_nested bo h]
    · rw [bo_unmap_last bo h]

/-- Instance of C4: the last `bo_unmap` of an object mapped once. -/
theorem bo_unmap_counts_down_witness :
    (bo_unmap { sample_bo with map_count := 1 }).ret = 0 ∧
    (bo_unmap { sample_bo with map_count := 1 }).bo.map_count = 1 - 1 ∧
    (bo_unmap { sample_bo with map_count := 1 }).calls = [Call.munmap 0 4096] :=
  have h := bo_unmap_counts_down { sample_bo with map_count := 1 } 1 (by decide) rfl
  ⟨h.2.1, h.2.2.1, (h.2.2.2.2.1 (by decide)).1⟩

theorem bo_unref_alive (w : World) (bo : radeon_bo_gem) (h : bo.base.cref ≠ 0) :
    bo_unref w (some bo) = { ret := some bo, calls := [] } := by
  simp [bo_unref, h]

theorem bo_unref_dead (w : World) (bo : radeon_bo_gem) (h : bo.base.cref = 0) :
    bo_unref w (some bo) =
      { ret := none,
        calls := (if bo.map_count ≠ 0 then [Call.munmap bo.base.ptr bo.base.size] else []) ++
          [Call.gem_close (w.bom_mem bo.base.bom).fd bo.base.handle, Call.free zeroed] } := by
  simp [bo_unref, h]

theorem closes_of_teardown (cond : Prop) [Decidable cond] (p s : Nat) (fd : Int) (hd : Nat) :
    List.countP is_close ((if cond then [Call.munmap p s] else []) ++
      [Call.gem_close fd hd, Call.free zeroed]) = 1 := by
  by_cases hc : cond <;> simp [hc, is_close, List.countP_cons]

theorem ref_step_close_once (w : World) (b : radeon_bo_gem) (op : RefOp) :
    ((ref_step w b op).count ≠ 0 →
      (ref_step w b op).calls = [] ∧ (ref_step w b op).after ≠ none) ∧
    ((ref_step w b op).after = none ↔
      (ref_step w b op).op = RefOp.unref ∧ (ref_step w b op).count = 0) ∧
    List.countP is_close (ref_step w b op).calls =
      if (ref_step w b op).op = RefOp.unref ∧ (ref_step w b op).count = 0 then 1 else 0 := by
  cases op with
  | ref =>
    refine ⟨fun _ => ⟨rfl, fun h => Option.noConfusion h⟩,
      ⟨fun h => Option.noConfusion h, fun h => RefOp.noConfusion h.1⟩, ?_⟩
    have hne : ¬ ((ref_step w b RefOp.ref).op = RefOp.unref ∧
        (ref_step w b RefOp.ref).count = 0) := fun h => RefOp.noConfusion h.1
    rw [if_neg hne]
    rfl
  | unref =>
    by_cases hc : uint_dec b.base.cref = 0
    · have hr := bo_unref_dead w { b with base := { b.base with cref := uint_dec b.base.cref } } hc
      have hz : (ref_step w b RefOp.unref).op = RefOp.unref ∧
          (ref_step w b RefOp.unref).count = 0 := ⟨rfl, hc⟩
      rw [if_pos hz]
      refine ⟨fun h => absurd hc h, ⟨fun _ => hz, fun _ => ?_⟩, ?_⟩
      · show (radeon_bo_unref w b).ret = none
        unfold radeon_bo_unref
        rw [hr]
      · show List.countP is_close (radeon_bo_unref w b).calls = 1
        unfold radeon_bo_unref
        rw [hr]
        exact closes_of_teardown _ _ _ _ _
    · have hr := bo_unref_alive w { b with base := { b.base with cref := uint_dec b.base.cref } } hc
      have hz : ¬ ((ref_step w b RefOp.unref).op = RefOp.unref ∧
          (ref_step w b RefOp.unref).count = 0) := fun h => hc h.2
      rw [if_neg hz]
      have hret : (ref_step w b RefOp.unref).after =
          some { b with base := { b.base with cref := uint_dec b.base.cref } } := by
        show (radeon_bo_unref w b).ret = _
        unfold radeon_bo_unref
        rw [hr]
      have hcalls : (ref_step w b RefOp.unref).calls = [] := by
        show (radeon_bo_unref w b).calls = _
        unfold radeon_bo_unref
        rw [hr]
      refine ⟨fun _ => ⟨hcalls, ?_⟩, ⟨fun h => ?_, fun h => absurd h hz⟩, ?_⟩
      · rw [hret]
        exact fun h => Option.noConfusion h
      · rw [hret] at h
        exact Option.noConfusion h
      · rw [hcalls]
        rfl

theorem run_refs_close_once (w : World) (ops : List RefOp) :
    ∀ b : Option radeon_bo_gem,
      (∀ s ∈ run_refs w ops b,
        (s.count ≠ 0 → s.calls = [] ∧ s.after ≠ none) ∧
        (s.after = none ↔ s.op = RefOp.unref ∧ s.count = 0) ∧
        List.countP is_close s.calls = if s.op = RefOp.unref ∧ s.count = 0 then 1 else 0) ∧
      List.countP is_close (ref_calls (run_refs w ops b)) ≤ 1 := by
  induction ops with
  | nil =>
    intro b
    rw [run_refs]
    exact ⟨fun s hs => absurd hs (List.not_mem_nil s), Nat.zero_le 1⟩
  | cons op ops ih =>
    intro b
    cases b with
    | none =>
      rw [run_refs]
      exact ⟨fun s hs => absurd hs (List.not_mem_nil s), Nat.zero_le 1⟩
    | some b =>
      obtain ⟨i1, i2⟩ := ih (ref_step w b op).after
      obtain ⟨s1, s2, s3⟩ := ref_step_close_once w b op
      rw [run_refs]
      refine ⟨?_, ?_⟩
      · intro s hs
        rcases List.mem_cons.mp hs with hs | hs
        · subst hs
          exact ⟨s1, s2, s3⟩
        · exact i1 s hs
      · rw [ref_calls, List.countP_append, s3]
        by_cases hz : (ref_step w b op).op = RefOp.unref ∧ (ref_step w b op).count = 0
        · rw [if_pos hz, s2.mpr hz]
          cases ops with
          | nil => rw [run_refs]; exact le_refl 1
          | cons o os => rw [run_refs]; exact le_refl 1
        · rw [if_neg hz, Nat.zero_add]
          exact i2

/-- C5: for every object whose reference count, as `bo_unref` sees it, is still
greater than 0, `bo_unref` returns the same object with every field unchanged and
issues no call at all.  Consequently, in any sequence of `radeon_bo_ref` and
`radeon_bo_unref` on an object created with count 1: a request that leaves the
count nonzero issues no call and keeps the object; the object is freed only by a
release that drives the count to 0; exactly that release issues
`DRM_IOCTL_GEM_CLOSE`, once; and the whole sequence issues it at most once. -/
theorem bo_unref_keeps_referenced_object (w : World) (bo : radeon_bo_gem)
    (h : 0 < bo.base.cref) :
    bo_unref w (some bo) = { ret := some bo, calls := [] } ∧
    ∀ (ops : List RefOp) (b : radeon_bo_gem), b.base.cref = 1 →
      (∀ s ∈ run_refs w ops (some b),
        (s.count ≠ 0 → s.calls = [] ∧ s.after ≠ none) ∧
        (s.after = none ↔ s.op = RefOp.unref ∧ s.count = 0) ∧
        List.countP is_close s.calls = if s.op = RefOp.unref ∧ s.count = 0 then 1 else 0) ∧
      List.countP is_close (ref_calls (run_refs w ops (some b))) ≤ 1 :=
  ⟨bo_unref_alive w bo (Nat.pos_iff_ne_zero.mp h), fun ops b _ => run_refs_close_once w ops (some b)⟩

/-- Instance of C5 on `sample_bo`, whose count is 1: `bo_unref` leaves it alone,
and in the sequence ref, unref, unref only the last release closes the handle. -/
theorem bo_unref_keeps_referenced_object_witness :
    bo_unref good_world (some sample_bo) = { ret := some sample_bo, calls := [] } ∧
    (run_refs good_world [RefOp.ref, RefOp.unref, RefOp.unref] (some sample_bo)).map
        RefStep.calls =
      [[], [], [Call.gem_close 3 7, Call.free zeroed]] ∧
    List.countP is_close
      (ref_calls (run_refs good_world [RefOp.ref, RefOp.unref, RefOp.unref] (some sample_bo)))
      ≤ 1 :=
  have h := bo_unref_keeps_referenced_object good_world sample_bo (by decide)
  ⟨h.1, by decide, (h.2 [RefOp.ref, RefOp.unref, RefOp.unref] sample_bo rfl).2⟩

/-- C6 (as stated, refuted): `underflowed_bo` has reference count 0 and
`map_count = -1`, which is not greater than 0, and yet `bo_unref` issues
`munmap` for it before it closes the handle. -/
theorem bo_unref_unmaps_negative_count :
    underflowed_bo.base.cref = 0 ∧
    (bo_unref good_world (some underflowed_bo)).calls =
      [Call.munmap 0 4096, Call.gem_close 3 7, Call.free zeroed] ∧
    ¬ ((∃ c ∈ (bo_unref good_world (some underflowed_bo)).calls, is_munmap c = true) ↔
        0 < underflowed_bo.map_count) := by
  decide

/-- C6 (amended): for every object whose reference count has reached 0,
`bo_unref` returns `NULL` and issues, in this order: `munmap(ptr, size)` if and
only if `map_count` is nonzero, then exactly one `DRM_IOCTL_GEM_CLOSE` carrying
the object's kernel handle, then `free` of the block, all of whose fields are
zero by then. -/
theorem bo_unref_last_reference (w : World) (bo : radeon_bo_gem) (h : bo.base.cref = 0) :
    (bo_unref w (some bo)).ret = none ∧
    (bo_unref w (some bo)).calls =
      (if bo.map_count ≠ 0 then [Call.munmap bo.base.ptr bo.base.size] else []) ++
        [Call.gem_close (w.bom_mem bo.base.bom).fd bo.base.handle, Call.free zeroed] ∧
    ((∃ c ∈ (bo_unref w (some bo)).calls, is_munmap c = true) ↔ bo.map_count ≠ 0) ∧
    List.countP is_close (bo_unref w (some bo)).calls = 1 := by
  rw [bo_unref_dead w bo h]
  refine ⟨rfl, rfl, ?_, closes_of_teardown _ _ _ _ _⟩
  by_cases hm : bo.map_count = 0 <;> simp [hm, is_munmap]

/-- Instance of C6 (amended): an object mapped twice whose last reference is
dropped. -/
theorem bo_unref_last_reference_witness :
    (bo_unref good_world
      (some { underflowed_bo with map_count := 2, base := { underflowed_bo.base with ptr := 65536 } })).ret
      = none ∧
    (bo_unref good_world
      (some { underflowed_bo with map_count := 2, base := { underflowed_bo.base with ptr := 65536 } })).calls
      = [Call.munmap 65536 4096, Call.gem_close 3 7, Call.free zeroed] :=
  have h := bo_unref_last_reference good_world
    { underflowed_bo with map_count := 2, base := { underflowed_bo.base with ptr := 65536 } } rfl
  ⟨h.1, h.2.1⟩

theorem bo_open_by_name_ok (w : World) (hist : List Call)
    (bom name size alignment domains flags : Nat)
    (hname : name ≠ 0) (hcalloc : w.calloc_ok (hist ++ [Call.calloc]) = true)
    (hr : (w.gem_open (hist ++ [Call.calloc, Call.gem_open (w.bom_mem bom).fd name])).r = 0) :
    bo_open w hist bom name size alignment domains flags =
      { ret := some (radeon_bo_ref
          { base := { bom := bom,
                      handle := (w.gem_open (hist ++ [Call.calloc,
                        Call.gem_open (w.bom_mem bom).fd name])).handle,
                      size := to_uint32 (w.gem_open (hist ++ [Call.calloc,
                        Call.gem_open (w.bom_mem bom).fd name])).size,
                      alignment := alignment, domains := domains, flags := flags,
                      cref := 0, ptr := 0 },
            name := name, map_count := 0 }),
        calls := [Call.calloc, Call.gem_open (w.bom_mem bom).fd name] } := by
  simp [bo_open, hcalloc, hname, hr, zeroed]

theorem bo_open_fresh_ok (w : World) (hist : List Call)
    (bom size alignment domains flags : Nat)
    (hcalloc : w.calloc_ok (hist ++ [Call.calloc]) = true)
    (hr : (w.gem_create (hist ++ [Call.calloc,
      Call.gem_create (w.bom_mem bom).fd size alignment domains 0 0])).r = 0) :
    bo_open w hist bom 0 size alignment domains flags =
      { ret := some (radeon_bo_ref
          { base := { bom := bom,
                      handle := (w.gem_create (hist ++ [Call.calloc,
                        Call.gem_create (w.bom_mem bom).fd size alignment domains 0 0])).handle,
                      size := size, alignment := alignment, domains := domains, flags := flags,
                      cref := 0, ptr := 0 },
            name := 0, map_count := 0 }),
        calls := [Call.calloc, Call.gem_create (w.bom_mem bom).fd size alignment domains 0 0] } := by
  simp [bo_open, hcalloc, hr, zeroed]

theorem bo_open_fails (w : World) (hist : List Call)
    (bom handle size alignment domains flags : Nat)
    (h : w.calloc_ok (hist ++ [Call.calloc]) = false ∨
      (handle ≠ 0 ∧
        (w.gem_open (hist ++ [Call.calloc, Call.gem_open (w.bom_mem bom).fd handle])).r ≠ 0) ∨
      (handle = 0 ∧
        (w.gem_create (hist ++ [Call.calloc,
          Call.gem_create (w.bom_mem bom).fd size alignment domains 0 0])).r ≠ 0)) :
    (bo_open w hist bom handle size alignment domains flags).ret = none := by
  by_cases hc : w.calloc_ok (hist ++ [Call.calloc]) = false
  · simp [bo_open, hc]
  · rcases h with h | ⟨hh, hr⟩ | ⟨hh, hr⟩
    · exact absurd h hc
    · simp [bo_open, hc, hh, hr]
    · subst hh
      simp [bo_open, hc, hr, zeroed]

/-- C7 (as stated, refuted): the caller asks for 8192 bytes under the name 5 and
the device reports `2 ^ 32 + 4096` bytes; the object returned by `bo_open` has
size 4096, the low 32 bits of the reported size, and not the reported size. -/
theorem bo_open_by_name_truncates_size :
    (huge_object.gem_open [Call.calloc, Call.gem_open 3 5]).r = 0 ∧
    (huge_object.gem_open [Call.calloc, Call.gem_open 3 5]).size = 2 ^ 32 + 4096 ∧
    (bo_open huge_object [] 1 5 8192 4096 2 0).ret.map (fun b => b.base.size) = some 4096 ∧
    (bo_open huge_object [] 1 5 8192 4096 2 0).ret.map (fun b => b.base.size) ≠
      some (2 ^ 32 + 4096) := by
  decide

/-- C7 (amended): for every nonzero name and every caller-supplied size, if
`DRM_IOCTL_GEM_OPEN` succeeds reporting handle `h` and size `S'`, `bo_open`
returns an object whose size is `S'` reduced modulo `2 ^ 32`, hence `S'` itself
whenever `S' < 2 ^ 32`, and not the caller's size; its kernel handle is `h`, and
alignment, domains and flags are the caller's values. -/
theorem bo_open_by_name_adopts_device_size (w : World) (hist : List Call)
    (bom name size alignment domains flags h S' : Nat)
    (hname : name ≠ 0) (hcalloc : w.calloc_ok (hist ++ [Call.calloc]) = true)
    (hopen : w.gem_open (hist ++ [Call.calloc, Call.gem_open (w.bom_mem bom).fd name]) =
      { r := 0, handle := h, size := S' }) :
    ∃ bo, (bo_open w hist bom name size alignment domains flags).ret = some bo ∧
      bo.base.size = S' % 2 ^ 32 ∧ (S' < 2 ^ 32 → bo.base.size = S') ∧
      bo.base.handle = h ∧ bo.base.alignment = alignment ∧
      bo.base.domains = domains ∧ bo.base.flags = flags := by
  have hr : (w.gem_open (hist ++ [Call.calloc, Call.gem_open (w.bom_mem bom).fd name])).r = 0 := by
    rw [hopen]
  rw [bo_open_by_name_ok w hist bom name size alignment domains flags hname hcalloc hr, hopen]
  refine ⟨_, rfl, ?_, ?_, rfl, rfl, rfl, rfl⟩
  · show to_uint32 S' = S' % 2 ^ 32
    rfl
  · intro hlt
    show to_uint32 S' = S'
    exact Nat.mod_eq_of_lt hlt

/-- Instance of C7 (amended): the caller asks for 4096 bytes under the name 5,
the device reports 8192 bytes and handle 7. -/
theorem bo_open_by_name_adopts_device_size_witness :
    ∃ bo, (bo_open good_world [] 1 5 4096 4096 2 0).ret = some bo ∧
      bo.base.size = 8192 ∧ bo.base.handle = 7 ∧ bo.base.alignment = 4096 ∧
      bo.base.domains = 2 ∧ bo.base.flags = 0 := by
  obtain ⟨bo, h1, _, h3, h4, h5, h6, h7⟩ :=
    bo_open_by_name_adopts_device_size good_world [] 1 5 4096 4096 2 0 7 8192 (by decide) rfl rfl
  exact ⟨bo, h1, h3 (by decide), h4, h5, h6, h7⟩

/-- C8: for every successful `bo_open`, by name or fresh, the returned object
has reference count 1, `map_count = 0`, `ptr = NULL`, and its back-reference is
the manager that was passed in. -/
theorem bo_open_initial_state (w : World) (hist : List Call)
    (bom handle size alignment domains flags : Nat) (bo : radeon_bo_gem)
    (h : (bo_open w hist bom handle size alignment domains flags).ret = some bo) :
    bo.base.cref = 1 ∧ bo.map_count = 0 ∧ bo.base.ptr = 0 ∧ bo.base.bom = bom := by
  have h1 : uint_inc 0 = 1 := by decide
  by_cases hc : w.calloc_ok (hist ++ [Call.calloc]) = false
  · rw [bo_open_fails w hist bom handle size alignment domains flags (Or.inl hc)] at h
    exact Option.noConfusion h
  · have hc1 : w.calloc_ok (hist ++ [Call.calloc]) = true := by simpa using hc
    by_cases hh : handle = 0
    · subst hh
      by_cases hr : (w.gem_create (hist ++ [Call.calloc,
          Call.gem_create (w.bom_mem bom).fd size alignment domains 0 0])).r = 0
      · rw [bo_open_fresh_ok w hist bom size alignment domains flags hc1 hr] at h
        have e := Option.some.inj h
        subst e
        exact ⟨h1, rfl, rfl, rfl⟩
      · rw [bo_open_fails w hist bom 0 size alignment domains flags
          (Or.inr (Or.inr ⟨rfl, hr⟩))] at h
        exact Option.noConfusion h
    · by_cases hr : (w.gem_open (hist ++ [Call.calloc,
          Call.gem_open (w.bom_mem bom).fd handle])).r = 0
      · rw [bo_open_by_name_ok w hist bom handle size alignment domains flags hh hc1 hr] at h
        have e := Option.some.inj h
        subst e
        exact ⟨h1, rfl, rfl, rfl⟩
      · rw [bo_open_fails w hist bom handle size alignment domains flags
          (Or.inr (Or.inl ⟨hh, hr⟩))] at h
        exact Option.noConfusion h

/-- Instance of C8: a fresh allocation in `good_world`. -/
theorem bo_open_initial_state_witness :
    (bo_open good_world [] 1 0 4096 4096 2 0).ret = some sample_bo ∧
    sample_bo.base.cref = 1 ∧ sample_bo.map_count = 0 ∧ sample_bo.base.ptr = 0 ∧
    sample_bo.base.bom = 1 :=
  ⟨by decide, bo_open_initial_state good_world [] 1 0 4096 4096 2 0 sample_bo (by decide)⟩

/-- C9: `bo_open` returns `NULL` whenever the device call it makes fails, that is
for a nonzero name when `DRM_IOCTL_GEM_OPEN` returns nonzero and for name 0 when
`DRM_RADEON_GEM_CREATE` returns nonzero; and it returns a non-`NULL` object
exactly when the allocation of the bookkeeping memory and the device call both
succeed. -/
theorem bo_open_null_on_failure (w : World) (hist : List Call)
    (bom handle size alignment domains flags : Nat) :
    (handle ≠ 0 →
      (w.gem_open (hist ++ [Call.calloc, Call.gem_open (w.bom_mem bom).fd handle])).r ≠ 0 →
      (bo_open w hist bom handle size alignment domains flags).ret = none) ∧
    (handle = 0 →
      (w.gem_create (hist ++ [Call.calloc,
        Call.gem_create (w.bom_mem bom).fd size alignment domains 0 0])).r ≠ 0 →
      (bo_open w hist bom handle size alignment domains flags).ret = none) ∧
    ((bo_open w hist bom handle size alignment domains flags).ret ≠ none ↔
      w.calloc_ok (hist ++ [Call.calloc]) = true ∧
      (if handle ≠ 0 then
        (w.gem_open (hist ++ [Call.calloc, Call.gem_open (w.bom_mem bom).fd handle])).r
       else
        (w.gem_create (hist ++ [Call.calloc,
          Call.gem_create (w.bom_mem bom).fd size alignment domains 0 0])).r) = 0) := by
  refine ⟨fun hh hr => bo_open_fails w hist bom handle size alignment domains flags
      (Or.inr (Or.inl ⟨hh, hr⟩)),
    fun hh hr => bo_open_fails w hist bom handle size alignment domains flags
      (Or.inr (Or.inr ⟨hh, hr⟩)), ?_⟩
  by_cases hc : w.calloc_ok (hist ++ [Call.calloc]) = false
  · rw [bo_open_fails w hist bom handle size alignment domains flags (Or.inl hc), hc]
    simp
  · have hc1 : w.calloc_ok (hist ++ [Call.calloc]) = true := by simpa using hc
    by_cases hh : handle = 0
    · subst hh
      by_cases hr : (w.gem_create (hist ++ [Call.calloc,
          Call.gem_create (w.bom_mem bom).fd size alignment domains 0 0])).r = 0
      · rw [bo_open_fresh_ok w hist bom size alignment domains flags hc1 hr]
        simp [hc1, hr]
      · rw [bo_open_fails w hist bom 0 size alignment domains flags
          (Or.inr (Or.inr ⟨rfl, hr⟩))]
        simp [hr]
    · by_cases hr : (w.gem_open (hist ++ [Call.calloc,
          Call.gem_open (w.bom_mem bom).fd handle])).r = 0
      · rw [bo_open_by_name_ok w hist bom handle size alignment domains flags hh hc1 hr]
        simp [hc1, hh, hr]
      · rw [bo_open_fails w hist bom handle size alignment domains flags
          (Or.inr (Or.inl ⟨hh, hr⟩))]
        simp [hh, hr]

/-- Instance of C9: in a world whose `DRM_RADEON_GEM_CREATE` fails with `-12`, a
fresh allocation returns `NULL`. -/
theorem bo_open_null_on_failure_witness :
    (bo_open { good_world with gem_create := fun _ => { r := -12, handle := 0 } } []
      1 0 4096 4096 2 0).ret = none :=
  (bo_open_null_on_failure { good_world with gem_create := fun _ => { r := -12, handle := 0 } }
    [] 1 0 4096 4096 2 0).2.1 rfl (by decide)

/-- C10 (as stated, refuted): `bo_open` is called for a fresh allocation with
flags 5; the `DRM_RADEON_GEM_CREATE` request it sends carries flags 0, so the
request with the caller's flags is not among the calls. -/
theorem bo_open_create_drops_flags :
    (bo_open good_world [] 1 0 4096 4096 2 5).calls =
      [Call.calloc, Call.gem_create 3 4096 4096 2 0 0] ∧
    Call.gem_create 3 4096 4096 2 5 0 ∉ (bo_open good_world [] 1 0 4096 4096 2 5).calls := by
  decide

/-- C10 (amended): for every call `bo_open(bom, 0, size, alignment, domains,
flags)`, the only `DRM_RADEON_GEM_CREATE` request is sent once the bookkeeping
memory is allocated, and it carries the caller's size, alignment and domains; its
flags field and its handle field are 0, whatever flags the caller gave.  The
caller's flags are only stored: every object that the call returns has them in
its `flags` field. -/
theorem bo_open_create_request (w : World) (hist : List Call)
    (bom size alignment domains flags : Nat) :
    ((bo_open w hist bom 0 size alignment domains flags).calls.filter is_gem_create =
      if w.calloc_ok (hist ++ [Call.calloc]) = true then
        [Call.gem_create (w.bom_mem bom).fd size alignment domains 0 0]
      else []) ∧
    (∀ bo, (bo_open w hist bom 0 size alignment domains flags).ret = some bo →
      bo.base.flags = flags) := by
  refine ⟨?_, ?_⟩
  · by_cases hc : w.calloc_ok (hist ++ [Call.calloc]) = false
    · simp [bo_open, hc, is_gem_create]
    · by_cases hr : (w.gem_create (hist ++ [Call.calloc,
          Call.gem_create (w.bom_mem bom).fd size alignment domains 0 0])).r = 0
      · simp [bo_open, hc, hr, zeroed, is_gem_create, List.filter]
      · simp [bo_open, hc, hr, zeroed, is_gem_create, List.filter]
  · intro bo h
    by_cases hc : w.calloc_ok (hist ++ [Call.calloc]) = false
    · rw [bo_open_fails w hist bom 0 size alignment domains flags (Or.inl hc)] at h
      exact Option.noConfusion h
    · have hc1 : w.calloc_ok (hist ++ [Call.calloc]) = true := by simpa using hc
      by_cases hr : (w.gem_create (hist ++ [Call.calloc,
          Call.gem_create (w.bom_mem bom).fd size alignment domains 0 0])).r = 0
      · rw [bo_open_fresh_ok w hist bom size alignment domains flags hc1 hr] at h
        have e := Option.some.inj h
        subst e
        rfl
      · rw [bo_open_fails w hist bom 0 size alignment domains flags
          (Or.inr (Or.inr ⟨rfl, hr⟩))] at h
        exact Option.noConfusion h

/-- Instance of C10 (amended): a fresh allocation with flags 5 in `good_world`
sends a request with flags 0 and returns an object whose flags are 5. -/
theorem bo_open_create_request_witness :
    (bo_open good_world [] 1 0 4096 4096 2 5).calls.filter is_gem_create =
      [Call.gem_create 3 4096 4096 2 0 0] ∧
    (bo_open good_world [] 1 0 4096 4096 2 5).ret =
      some { sample_bo with base := { sample_bo.base with flags := 5 } } ∧
    ({ sample_bo with base := { sample_bo.base with flags := 5 } } :
      radeon_bo_gem).base.flags = 5 :=
  have h := bo_open_create_request good_world [] 1 4096 4096 2 5
  ⟨h.1, by decide, h.2 _ (by decide)⟩

theorem append_replicate_succ (hist : List Call) (c : Call) (n : Nat) :
    hist ++ [c] ++ List.replicate n c = hist ++ List.replicate (n + 1) c := by
  rw [List.replicate_succ, List.append_assoc, List.singleton_append]

theorem bo_wait_loop_retries (w : World) (c : Call) (r : Int) (hne : r ≠ -EBUSY) (k : Nat) :
    ∀ (fuel : Nat) (hist : List Call),
      (∀ i, i < k → w.gem_wait_idle (hist ++ List.replicate (i + 1) c) = -EBUSY) →
      w.gem_wait_idle (hist ++ List.replicate (k + 1) c) = r →
      k + 1 ≤ fuel →
      bo_wait_loop w c fuel hist = some (r, List.replicate (k + 1) c) := by
  induction k with
  | zero =>
    intro fuel hist _ hr hfuel
    cases fuel with
    | zero => omega
    | succ f =>
      have hr1 : w.gem_wait_idle (hist ++ [c]) = r := hr
      rw [bo_wait_loop, hr1, if_neg hne]
      rfl
  | succ n ih =>
    intro fuel hist hbusy hr hfuel
    cases fuel with
    | zero => omega
    | succ f =>
      have hb0 : w.gem_wait_idle (hist ++ [c]) = -EBUSY := hbusy 0 (Nat.succ_pos n)
      have hrec := ih f (hist ++ [c])
        (fun i hi => by
          rw [append_replicate_succ]
          exact hbusy (i + 1) (Nat.succ_lt_succ hi))
        (by rw [append_replicate_succ]; exact hr)
        (by omega)
      rw [bo_wait_loop, hb0, if_pos rfl, hrec]
      rfl

theorem bo_wait_loop_result (w : World) (c : Call) (fuel : Nat) :
    ∀ (hist : List Call) (r : Int) (cs : List Call),
      bo_wait_loop w c fuel hist = some (r, cs) →
      r ≠ -EBUSY ∧ r = w.gem_wait_idle (hist ++ cs) := by
  induction fuel with
  | zero =>
    intro hist r cs h
    rw [bo_wait_loop] at h
    exact Option.noConfusion h
  | succ f ih =>
    intro hist r cs h
    rw [bo_wait_loop] at h
    by_cases hb : w.gem_wait_idle (hist ++ [c]) = -EBUSY
    · rw [if_pos hb] at h
      cases hrec : bo_wait_loop w c f (hist ++ [c]) with
      | none =>
        rw [hrec] at h
        exact Option.noConfusion h
      | some p =>
        rw [hrec] at h
        have e : (p.1, c :: p.2) = (r, cs) := Option.some.inj h
        have e1 : p.1 = r := congrArg Prod.fst e
        have e2 : c :: p.2 = cs := congrArg Prod.snd e
        obtain ⟨i1, i2⟩ := ih (hist ++ [c]) p.1 p.2 hrec
        subst e1
        subst e2
        refine ⟨i1, ?_⟩
        rw [i2, List.append_assoc, List.singleton_append]
    · rw [if_neg hb] at h
      have e : (w.gem_wait_idle (hist ++ [c]), [c]) = (r, cs) := Option.some.inj h
      have e1 : w.gem_wait_idle (hist ++ [c]) = r := congrArg Prod.fst e
      have e2 : [c] = cs := congrArg Prod.snd e
      subst e2
      exact ⟨fun hr => hb (e1.trans hr), e1.symm⟩

theorem bo_wait_result (w : World) (fuel : Nat) (hist : List Call) (bo : radeon_bo_gem)
    (res : IntResult) (h : bo_wait w fuel hist bo = some res) :
    res.ret ≠ -EBUSY ∧ res.ret = w.gem_wait_idle (hist ++ res.calls) ∧ res.bo = bo := by
  unfold bo_wait at h
  cases hl : bo_wait_loop w (Call.gem_wait_idle (w.bom_mem bo.base.bom).fd bo.base.handle)
      fuel hist with
  | none =>
    rw [hl] at h
    exact Option.noConfusion h
  | some p =>
    rw [hl] at h
    have e : ({ ret := p.1, bo := bo, calls := p.2 } : IntResult) = res := Option.some.inj h
    subst e
    obtain ⟨i1, i2⟩ := bo_wait_loop_result w _ fuel hist p.1 p.2 hl
    exact ⟨i1, i2, rfl⟩

/-- C11: for every k >= 0 and every status r other than `-EBUSY`, if the device
answers `DRM_RADEON_GEM_WAIT_IDLE` with `-EBUSY` k times and then with r,
`bo_wait` (given at least k + 1 rounds) issues exactly k + 1 device calls and
returns r; and whenever `bo_wait` returns, the value is not `-EBUSY`. -/
theorem bo_wait_retries_while_busy (w : World) (hist : List Call) (bo : radeon_bo_gem)
    (k : Nat) (r : Int) (fuel : Nat)
    (hbusy : ∀ i, i < k →
      w.gem_wait_idle (hist ++ List.replicate (i + 1)
        (Call.gem_wait_idle (w.bom_mem bo.base.bom).fd bo.base.handle)) = -EBUSY)
    (hr : w.gem_wait_idle (hist ++ List.replicate (k + 1)
        (Call.gem_wait_idle (w.bom_mem bo.base.bom).fd bo.base.handle)) = r)
    (hne : r ≠ -EBUSY) (hfuel : k + 1 ≤ fuel) :
    bo_wait w fuel hist bo =
      some { ret := r, bo := bo,
             calls := List.replicate (k + 1)
               (Call.gem_wait_idle (w.bom_mem bo.base.bom).fd bo.base.handle) } ∧
    (List.replicate (k + 1)
      (Call.gem_wait_idle (w.bom_mem bo.base.bom).fd bo.base.handle)).length = k + 1 ∧
    (∀ (f : Nat) (h : List Call) (b : radeon_bo_gem) (res : IntResult),
      bo_wait w f h b = some res → res.ret ≠ -EBUSY) := by
  refine ⟨?_, List.length_replicate _ _, fun f h b res hres => (bo_wait_result w f h b res hres).1⟩
  unfold bo_wait
  rw [bo_wait_loop_retries w _ r hne k fuel hist hbusy hr hfuel]
  rfl

/-- Instance of C11: the device reports busy, busy, success; `bo_wait` issues
three calls and returns 0. -/
theorem bo_wait_retries_while_busy_witness :
    bo_wait busy_twice 3 [] sample_bo =
      some { ret := 0, bo := sample_bo,
             calls := [Call.gem_wait_idle 3 7, Call.gem_wait_idle 3 7, Call.gem_wait_idle 3 7] } :=
  (bo_wait_retries_while_busy busy_twice [] sample_bo 2 0 3
    (fun i hi => by
      have h : i = 0 ∨ i = 1 := by omega
      rcases h with h | h <;> subst h <;> decide)
    (by decide) (by decide) (by decide)).1

theorem bo_map_query_fails (w : World) (hist : List Call) (bo : radeon_bo_gem) (write : Int)
    (h0 : bo.map_count = 0)
    (hr : (w.gem_mmap (hist ++ [Call.gem_mmap (w.bom_mem bo.base.bom).fd bo.base.handle 0
      bo.base.size])).r ≠ 0) :
    bo_map w hist bo write =
      { ret := (w.gem_mmap (hist ++ [Call.gem_mmap (w.bom_mem bo.base.bom).fd bo.base.handle 0
          bo.base.size])).r,
        bo := { bo with map_count := 1, base := { bo.base with ptr := 0 } },
        calls := [Call.gem_mmap (w.bom_mem bo.base.bom).fd bo.base.handle 0 bo.base.size,
          Call.fprintf [(bo.base.handle : Int),
            (w.gem_mmap (hist ++ [Call.gem_mmap (w.bom_mem bo.base.bom).fd bo.base.handle 0
              bo.base.size])).r]] } := by
  simp [bo_map, h0, hr]

theorem bo_map_mmap_fails (w : World) (hist : List Call) (bo : radeon_bo_gem) (write : Int)
    (errno : Nat) (h0 : bo.map_count = 0)
    (hq : (w.gem_mmap (hist ++ [Call.gem_mmap (w.bom_mem bo.base.bom).fd bo.base.handle 0
            bo.base.size])).r = 0)
    (hm : w.mmap (hist ++ [Call.gem_mmap (w.bom_mem bo.base.bom).fd bo.base.handle 0 bo.base.size,
            Call.mmap 0 bo.base.size (PROT_READ ||| PROT_WRITE) MAP_SHARED
              (w.bom_mem bo.base.bom).fd
              (w.gem_mmap (hist ++ [Call.gem_mmap (w.bom_mem bo.base.bom).fd bo.base.handle 0
                bo.base.size])).addr_ptr]) = MmapResult.MAP_FAILED errno) :
    bo_map w hist bo write =
      { ret := -(errno : Int),
        bo := { bo with map_count := 1, base := { bo.base with ptr := 0 } },
        calls := [Call.gem_mmap (w.bom_mem bo.base.bom).fd bo.base.handle 0 bo.base.size,
                  Call.mmap 0 bo.base.size (PROT_READ ||| PROT_WRITE) MAP_SHARED
                    (w.bom_mem bo.base.bom).fd
                    (w.gem_mmap (hist ++ [Call.gem_mmap (w.bom_mem bo.base.bom).fd
                      bo.base.handle 0 bo.base.size])).addr_ptr] } := by
  simp only [bo_map, h0, ne_eq, not_true_eq_false, if_false, hq, List.cons_append,
    List.nil_append, zero_add]
  rw [hm]

/-- C12 (as stated, refuted): `unallocated_bo` has kernel handle 0 and
`map_count = 0`; in `good_world`, whose device accepts the query, `bo_map`
returns 0 and stores the mapped address, while in `query_fails` it returns
`-22`: the outcome depends on what the device answers. -/
theorem bo_map_of_handle_zero_can_succeed :
    unallocated_bo.base.handle = 0 ∧ unallocated_bo.map_count = 0 ∧
    (bo_map good_world [] unallocated_bo 1).ret = 0 ∧
    (bo_map good_world [] unallocated_bo 1).bo.base.ptr = 65536 ∧
    (bo_map query_fails [] unallocated_bo 1).ret = -22 ∧
    ¬ (∀ w : World, (bo_map w [] unallocated_bo 1).ret ≠ 0 ∧
        (bo_map w [] unallocated_bo 1).bo.base.ptr = 0) := by
  refine ⟨rfl, rfl, by decide, by decide, by decide, fun h => ?_⟩
  exact (h good_world).1 (by decide)

/-- C12 (amended): for every object with kernel handle 0 and `map_count = 0`,
`bo_map` does not look at the handle: it sends the `DRM_RADEON_GEM_MMAP` query
for handle 0 to the device, and the outcome is the device's.  If the query
answers `r != 0`, `bo_map` returns `r` and leaves `ptr = NULL`; if the query
succeeds and `mmap` fails, it returns `-errno` and leaves `ptr = NULL`; if both
succeed, it returns 0 and stores the address in `ptr`. -/
theorem bo_map_of_handle_zero (w : World) (hist : List Call) (bo : radeon_bo_gem) (write : Int)
    (hh : bo.base.handle = 0) (h0 : bo.map_count = 0) :
    (bo_map w hist bo write).calls.head? =
      some (Call.gem_mmap (w.bom_mem bo.base.bom).fd 0 0 bo.base.size) ∧
    ((w.gem_mmap (hist ++ [Call.gem_mmap (w.bom_mem bo.base.bom).fd 0 0 bo.base.size])).r ≠ 0 →
      (bo_map w hist bo write).ret =
        (w.gem_mmap (hist ++ [Call.gem_mmap (w.bom_mem bo.base.bom).fd 0 0 bo.base.size])).r ∧
      (bo_map w hist bo write).bo.base.ptr = 0) ∧
    ((w.gem_mmap (hist ++ [Call.gem_mmap (w.bom_mem bo.base.bom).fd 0 0 bo.base.size])).r = 0 →
      (∀ errno,
        w.mmap (hist ++ [Call.gem_mmap (w.bom_mem bo.base.bom).fd 0 0 bo.base.size,
          Call.mmap 0 bo.base.size (PROT_READ ||| PROT_WRITE) MAP_SHARED
            (w.bom_mem bo.base.bom).fd
            (w.gem_mmap (hist ++ [Call.gem_mmap (w.bom_mem bo.base.bom).fd 0 0
              bo.base.size])).addr_ptr]) = MmapResult.MAP_FAILED errno →
        (bo_map w hist bo write).ret = -(errno : Int) ∧
        (bo_map w hist bo write).bo.base.ptr = 0) ∧
      (∀ p,
        w.mmap (hist ++ [Call.gem_mmap (w.bom_mem bo.base.bom).fd 0 0 bo.base.size,
          Call.mmap 0 bo.base.size (PROT_READ ||| PROT_WRITE) MAP_SHARED
            (w.bom_mem bo.base.bom).fd
            (w.gem_mmap (hist ++ [Call.gem_mmap (w.bom_mem bo.base.bom).fd 0 0
              bo.base.size])).addr_ptr]) = MmapResult.ok p →
        (bo_map w hist bo write).ret = 0 ∧
        (bo_map w hist bo write).bo.base.ptr = p)) := by
  have key : ∀ (q : gem_mmap_out),
      w.gem_mmap (hist ++ [Call.gem_mmap (w.bom_mem bo.base.bom).fd 0 0 bo.base.size]) = q →
      w.gem_mmap (hist ++ [Call.gem_mmap (w.bom_mem bo.base.bom).fd bo.base.handle 0
        bo.base.size]) = q := by
    intro q hq
    rw [hh]
    exact hq
  refine ⟨?_, ?_, ?_⟩
  · by_cases hr : (w.gem_mmap (hist ++ [Call.gem_mmap (w.bom_mem bo.base.bom).fd
        bo.base.handle 0 bo.base.size])).r = 0
    · cases hm : w.mmap (hist ++ [Call.gem_mmap (w.bom_mem bo.base.bom).fd bo.base.handle 0
          bo.base.size, Call.mmap 0 bo.base.size (PROT_READ ||| PROT_WRITE) MAP_SHARED
            (w.bom_mem bo.base.bom).fd
            (w.gem_mmap (hist ++ [Call.gem_mmap (w.bom_mem bo.base.bom).fd bo.base.handle 0
              bo.base.size])).addr_ptr]) with
      | ok p =>
        rw [bo_map_first_ok w hist bo write p h0 hr hm, hh]
        rfl
      | MAP_FAILED e =>
        rw [bo_map_mmap_fails w hist bo write e h0 hr hm, hh]
        rfl
    · rw [bo_map_query_fails w hist bo write h0 hr, hh]
      rfl
  · intro hr
    have hr1 : (w.gem_mmap (hist ++ [Call.gem_mmap (w.bom_mem bo.base.bom).fd bo.base.handle 0
        bo.base.size])).r ≠ 0 := by
      rw [key _ rfl]
      exact hr
    rw [bo_map_query_fails w hist bo write h0 hr1, key _ rfl]
    exact ⟨rfl, rfl⟩
  · intro hr
    have hr1 : (w.gem_mmap (hist ++ [Call.gem_mmap (w.bom_mem bo.base.bom).fd bo.base.handle 0
        bo.base.size])).r = 0 := by
      rw [key _ rfl]
      exact hr
    refine ⟨fun e hm => ?_, fun p hm => ?_⟩
    · have hm1 : w.mmap (hist ++ [Call.gem_mmap (w.bom_mem bo.base.bom).fd bo.base.handle 0
          bo.base.size, Call.mmap 0 bo.base.size (PROT_READ ||| PROT_WRITE) MAP_SHARED
            (w.bom_mem bo.base.bom).fd
            (w.gem_mmap (hist ++ [Call.gem_mmap (w.bom_mem bo.base.bom).fd bo.base.handle 0
              bo.base.size])).addr_ptr]) = MmapResult.MAP_FAILED e := by
        rw [hh]
        exact hm
      rw [bo_map_mmap_fails w hist bo write e h0 hr1 hm1]
      exact ⟨rfl, rfl⟩
    · have hm1 : w.mmap (hist ++ [Call.gem_mmap (w.bom_mem bo.base.bom).fd bo.base.handle 0
          bo.base.size, Call.mmap 0 bo.base.size (PROT_READ ||| PROT_WRITE) MAP_SHARED
            (w.bom_mem bo.base.bom).fd
            (w.gem_mmap (hist ++ [Call.gem_mmap (w.bom_mem bo.base.bom).fd bo.base.handle 0
              bo.base.size])).addr_ptr]) = MmapResult.ok p := by
        rw [hh]
        exact hm
      rw [bo_map_first_ok w hist bo write p h0 hr1 hm1]
      exact ⟨rfl, rfl⟩

/-- Instance of C12 (amended) on `unallocated_bo`: the query for handle 0 is
sent, and in `query_fails` the device's `-22` comes back. -/
theorem bo_map_of_handle_zero_witness :
    (bo_map query_fails [] unallocated_bo 1).calls.head? = some (Call.gem_mmap 3 0 0 4096) ∧
    (bo_map query_fails [] unallocated_bo 1).ret = -22 ∧
    (bo_map query_fails [] unallocated_bo 1).bo.base.ptr = 0 :=
  have h := bo_map_of_handle_zero query_fails [] unallocated_bo 1 rfl rfl
  ⟨h.1, (h.2.1 (by decide)).1, (h.2.1 (by decide)).2⟩

theorem bo_open_name (w : World) (hist : List Call)
    (bom handle size alignment domains flags : Nat) (bo : radeon_bo_gem)
    (h : (bo_open w hist bom handle size alignment domains flags).ret = some bo) :
    bo.name = handle := by
  by_cases hc : w.calloc_ok (hist ++ [Call.calloc]) = false
  · rw [bo_open_fails w hist bom handle size alignment domains flags (Or.inl hc)] at h
    exact Option.noConfusion h
  · have hc1 : w.calloc_ok (hist ++ [Call.calloc]) = true := by simpa using hc
    by_cases hh : handle = 0
    · subst hh
      by_cases hr : (w.gem_create (hist ++ [Call.calloc,
          Call.gem_create (w.bom_mem bom).fd size alignment domains 0 0])).r = 0
      · rw [bo_open_fresh_ok w hist bom size alignment domains flags hc1 hr] at h
        have e := Option.some.inj h
        subst e
        rfl
      · rw [bo_open_fails w hist bom 0 size alignment domains flags
          (Or.inr (Or.inr ⟨rfl, hr⟩))] at h
        exact Option.noConfusion h
    · by_cases hr : (w.gem_open (hist ++ [Call.calloc,
          Call.gem_open (w.bom_mem bom).fd handle])).r = 0
      · rw [bo_open_by_name_ok w hist bom handle size alignment domains flags hh hc1 hr] at h
        have e := Option.some.inj h
        subst e
        rfl
      · rw [bo_open_fails w hist bom handle size alignment domains flags
          (Or.inr (Or.inl ⟨hh, hr⟩))] at h
        exact Option.noConfusion h

/-- C13: for every object returned by a successful `bo_open`: if it was opened
with a nonzero name n, `radeon_gem_name_bo` returns n, so the global name is
nonzero; if it was freshly allocated (name argument 0), `radeon_gem_name_bo`
returns 0; and `radeon_gem_name_bo` leaves the object as it is and issues no
call. -/
theorem radeon_gem_name_bo_after_open (w : World) (hist : List Call)
    (bom handle size alignment domains flags : Nat) (bo : radeon_bo_gem)
    (h : (bo_open w hist bom handle size alignment domains flags).ret = some bo) :
    (handle ≠ 0 → (radeon_gem_name_bo bo).ret = handle ∧ (radeon_gem_name_bo bo).ret ≠ 0) ∧
    (handle = 0 → (radeon_gem_name_bo bo).ret = 0) ∧
    (radeon_gem_name_bo bo).bo = bo ∧ (radeon_gem_name_bo bo).calls = [] := by
  have hn : (radeon_gem_name_bo bo).ret = handle :=
    bo_open_name w hist bom handle size alignment domains flags bo h
  refine ⟨fun hh => ⟨hn, ?_⟩, fun hh => ?_, rfl, rfl⟩
  · rw [hn]
    exact hh
  · rw [hn]
    exact hh

/-- Instance of C13: an object opened under the name 5 and a freshly allocated
one, both in `good_world`. -/
theorem radeon_gem_name_bo_after_open_witness :
    (∃ bo, (bo_open good_world [] 1 5 4096 4096 2 0).ret = some bo ∧
      (radeon_gem_name_bo bo).ret = 5) ∧
    (bo_open good_world [] 1 0 4096 4096 2 0).ret = some sample_bo ∧
    (radeon_gem_name_bo sample_bo).ret = 0 :=
  ⟨⟨_, rfl, ((radeon_gem_name_bo_after_open good_world [] 1 5 4096 4096 2 0 _ rfl).1
      (by decide)).1⟩,
    by decide,
    (radeon_gem_name_bo_after_open good_world [] 1 0 4096 4096 2 0 sample_bo (by decide)).2.1 rfl⟩

/-- C14: for every object state and every device behaviour, `bo_map` gives the
same return value, the same resulting object and the same calls for any two
values of the write flag; and every `mmap` it issues asks for
`PROT_READ|PROT_WRITE` and `MAP_SHARED`. -/
theorem bo_map_ignores_write_flag (w : World) (hist : List Call) (bo : radeon_bo_gem)
    (w1 w2 : Int) :
    bo_map w hist bo w1 = bo_map w hist bo w2 ∧
    ∀ (addr len prot flags : Nat) (fd : Int) (off : Nat),
      Call.mmap addr len prot flags fd off ∈ (bo_map w hist bo w1).calls →
      prot = PROT_READ ||| PROT_WRITE ∧ flags = MAP_SHARED := by
  refine ⟨rfl, ?_⟩
  intro addr len prot flags fd off hmem
  by_cases h0 : bo.map_count = 0
  · by_cases hr : (w.gem_mmap (hist ++ [Call.gem_mmap (w.bom_mem bo.base.bom).fd
        bo.base.handle 0 bo.base.size])).r = 0
    · cases hm : w.mmap (hist ++ [Call.gem_mmap (w.bom_mem bo.base.bom).fd bo.base.handle 0
          bo.base.size, Call.mmap 0 bo.base.size (PROT_READ ||| PROT_WRITE) MAP_SHARED
            (w.bom_mem bo.base.bom).fd
            (w.gem_mmap (hist ++ [Call.gem_mmap (w.bom_mem bo.base.bom).fd bo.base.handle 0
              bo.base.size])).addr_ptr]) with
      | ok p =>
        rw [bo_map_first_ok w hist bo w1 p h0 hr hm] at hmem
        simp only [List.mem_cons, List.mem_singleton, List.not_mem_nil, or_false] at hmem
        rcases hmem with hmem | hmem
        · exact Call.noConfusion hmem
        · injection hmem with _ _ e3 e4
          exact ⟨e3, e4⟩
      | MAP_FAILED e =>
        rw [bo_map_mmap_fails w hist bo w1 e h0 hr hm] at hmem
        simp only [List.mem_cons, List.mem_singleton, List.not_mem_nil, or_false] at hmem
        rcases hmem with hmem | hmem
        · exact Call.noConfusion hmem
        · injection hmem with _ _ e3 e4
          exact ⟨e3, e4⟩
    · rw [bo_map_query_fails w hist bo w1 h0 hr] at hmem
      simp only [List.mem_cons, List.mem_singleton, List.not_mem_nil, or_false] at hmem
      rcases hmem with hmem | hmem
      · exact Call.noConfusion hmem
      · exact Call.noConfusion hmem
  · rw [bo_map_nested w hist bo w1 h0] at hmem
    exact absurd hmem (List.not_mem_nil _)

/-- Instance of C14: mapping `sample_bo` for reading and for writing. -/
theorem bo_map_ignores_write_flag_witness :
    bo_map good_world [] sample_bo 0 = bo_map good_world [] sample_bo 1 ∧
    (bo_map good_world [] sample_bo 0).calls =
      [Call.gem_mmap 3 7 0 4096, Call.mmap 0 4096 (PROT_READ ||| PROT_WRITE) MAP_SHARED 3 4096] :=
  ⟨(bo_map_ignores_write_flag good_world [] sample_bo 0 1).1, by decide⟩

/-- C15: for every object with `map_count > 0`, `bo_map` returns 0, sets
`map_count` to `map_count + 1`, leaves `ptr` and every other field unchanged, and
issues no call at all. -/
theorem bo_map_when_mapped (w : World) (hist : List Call) (bo : radeon_bo_gem) (write : Int)
    (h : 0 < bo.map_count) :
    (bo_map w hist bo write).ret = 0 ∧
    (bo_map w hist bo write).bo = { bo with map_count := bo.map_count + 1 } ∧
    (bo_map w hist bo write).bo.map_count = bo.map_count + 1 ∧
    (bo_map w hist bo write).bo.base = bo.base ∧
    (bo_map w hist bo write).bo.name = bo.name ∧
    (bo_map w hist bo write).calls = [] := by
  have hne : bo.map_count ≠ 0 := by omega
  rw [bo_map_nested w hist bo write hne]
  exact ⟨rfl, rfl, rfl, rfl, rfl, rfl⟩

/-- Instance of C15: a second `bo_map` of an object that is mapped once. -/
theorem bo_map_when_mapped_witness :
    (bo_map query_fails [] { sample_bo with map_count := 1 } 1).ret = 0 ∧
    (bo_map query_fails [] { sample_bo with map_count := 1 } 1).bo =
      { sample_bo with map_count := 1 + 1 } ∧
    (bo_map query_fails [] { sample_bo with map_count := 1 } 1).calls = [] :=
  have h := bo_map_when_mapped query_fails [] { sample_bo with map_count := 1 } 1 (by decide)
  ⟨h.1, h.2.1, h.2.2.2.2.2⟩

theorem transitions_balance (ops : List MapOp) :
    ∀ (n m : Nat), balance ops n = some m →
      zero_leaves ops n + (if n = 0 then 0 else 1) =
        zero_returns ops n + (if m = 0 then 0 else 1) := by
  induction ops with
  | nil =>
    intro n m h
    simp only [balance, Option.some.injEq] at h
    subst h
    rfl
  | cons op ops ih =>
    intro n m h
    cases op with
    | map write =>
      rw [balance] at h
      have i := ih (n + 1) m h
      rw [if_neg (Nat.succ_ne_zero n)] at i
      rw [zero_leaves, zero_returns]
      by_cases hn : n = 0
      · rw [if_pos hn, if_pos hn]; omega
      · rw [if_neg hn, if_neg hn]; omega
    | unmap =>
      rw [balance] at h
      by_cases hn : n = 0
      · rw [if_pos hn] at h
        exact Option.noConfusion h
      · rw [if_neg hn] at h
        have i := ih (n - 1) m h
        rw [zero_leaves, zero_returns, if_neg hn]
        by_cases h1 : n = 1
        · have h10 : n - 1 = 0 := by omega
          rw [if_pos h10] at i
          rw [if_pos h1]
          omega
        · have h10 : ¬ (n - 1 = 0) := by omega
          rw [if_neg h10] at i
          rw [if_neg h1]
          omega

theorem run_counts (w : World)
    (hq : ∀ h, (w.gem_mmap h).r = 0) (hm : ∀ h, ∃ p, w.mmap h = MmapResult.ok p)
    (ops : List MapOp) :
    ∀ (n m : Nat) (hist : List Call) (bo : radeon_bo_gem),
      balance ops n = some m → bo.map_count = n →
      List.countP is_mmap (issued (run w ops hist bo)) = zero_leaves ops n ∧
      List.countP is_gem_mmap (issued (run w ops hist bo)) = zero_leaves ops n ∧
      List.countP is_munmap (issued (run w ops hist bo)) = zero_returns ops n := by
  induction ops with
  | nil =>
    intro n m hist bo _ _
    rw [run, issued, zero_leaves, zero_returns]
    exact ⟨rfl, rfl, rfl⟩
  | cons op ops ih =>
    intro n m hist bo hb hc
    cases op with
    | map write =>
      rw [balance] at hb
      have hcount : (bo_map w hist bo write).bo.map_count = ((n + 1 : Nat) : Int) := by
        rw [bo_map_count, hc]
        push_cast
        rfl
      obtain ⟨i1, i2, i3⟩ := ih (n + 1) m (hist ++ (bo_map w hist bo write).calls)
        (bo_map w hist bo write).bo hb hcount
      rw [run, issued, zero_leaves, zero_returns]
      simp only [step, List.countP_append]
      rw [i1, i2, i3]
      by_cases hn : n = 0
      · have h0 : bo.map_count = 0 := by rw [hc, hn]; rfl
        obtain ⟨p, hp⟩ := hm (hist ++ [Call.gem_mmap (w.bom_mem bo.base.bom).fd
          bo.base.handle 0 bo.base.size, Call.mmap 0 bo.base.size (PROT_READ ||| PROT_WRITE)
            MAP_SHARED (w.bom_mem bo.base.bom).fd
            (w.gem_mmap (hist ++ [Call.gem_mmap (w.bom_mem bo.base.bom).fd bo.base.handle 0
              bo.base.size])).addr_ptr])
        rw [bo_map_first_ok w hist bo write p h0 (hq _) hp, if_pos hn]
        refine ⟨?_, ?_, ?_⟩
        · simp [is_mmap, List.countP_cons]
        · simp [is_gem_mmap, List.countP_cons]
        · simp [is_munmap, List.countP_cons]
      · have h0 : bo.map_count ≠ 0 := by rw [hc]; exact_mod_cast hn
        rw [bo_map_nested w hist bo write h0, if_neg hn]
        simp
    | unmap =>
      rw [balance] at hb
      by_cases hn : n = 0
      · rw [if_pos hn] at hb
        exact Option.noConfusion hb
      · rw [if_neg hn] at hb
        have hcount : (bo_unmap bo).bo.map_count = ((n - 1 : Nat) : Int) := by
          rw [bo_unmap_count, hc]
          omega
        obtain ⟨i1, i2, i3⟩ := ih (n - 1) m (hist ++ (bo_unmap bo).calls) (bo_unmap bo).bo
          hb hcount
        rw [run, issued, zero_leaves, zero_returns]
        simp only [step, List.countP_append]
        rw [i1, i2, i3]
        by_cases h1 : n = 1
        · have hle : bo.map_count ≤ 1 := by rw [hc, h1]; rfl
          rw [bo_unmap_last bo hle, if_pos h1]
          refine ⟨?_, ?_, ?_⟩
          · simp [is_mmap, List.countP_cons]
          · simp [is_gem_mmap, List.countP_cons]
          · simp [is_munmap, List.countP_cons]
        · have hlt : 1 < bo.map_count := by rw [hc]; omega
          rw [bo_unmap_nested bo hlt, if_neg h1]
          simp

/-- C16 (as stated, refuted): the interleaving map, unmap, map, unmap has N = 2
calls of each kind and no prefix with more unmaps than maps; on the unmapped
`sample_bo`, with a device that always succeeds, it issues two `mmap` and two
`munmap`, not one of each. -/
theorem remapping_after_full_unmap :
    never_underflows [MapOp.map 1, MapOp.unmap, MapOp.map 1, MapOp.unmap] = true ∧
    balance [MapOp.map 1, MapOp.unmap, MapOp.map 1, MapOp.unmap] 0 = some 0 ∧
    sample_bo.map_count = 0 ∧ sample_bo.base.ptr = 0 ∧
    List.countP is_mmap (issued (run good_world
      [MapOp.map 1, MapOp.unmap, MapOp.map 1, MapOp.unmap] [] sample_bo)) = 2 ∧
    List.countP is_munmap (issued (run good_world
      [MapOp.map 1, MapOp.unmap, MapOp.map 1, MapOp.unmap] [] sample_bo)) = 2 := by
  decide

/-- C16 (amended): for every interleaving of N `bo_map` calls and N `bo_unmap`
calls on an initially unmapped object in which no prefix contains more unmaps
than maps, with a device that always succeeds, the number of `mmap` calls, of
`DRM_RADEON_GEM_MMAP` queries and of `munmap` calls are all equal to the number
of times the number of outstanding mappings returns to 0; so exactly one `mmap`
and exactly one `munmap` occur when it returns to 0 only once, at the end. -/
theorem interleaved_map_unmap_counts (w : World) (hist : List Call) (bo : radeon_bo_gem)
    (ops : List MapOp) (h0 : bo.map_count = 0) (hbal : balance ops 0 = some 0)
    (hq : ∀ h, (w.gem_mmap h).r = 0) (hm : ∀ h, ∃ p, w.mmap h = MmapResult.ok p) :
    List.countP is_mmap (issued (run w ops hist bo)) = zero_returns ops 0 ∧
    List.countP is_gem_mmap (issued (run w ops hist bo)) = zero_returns ops 0 ∧
    List.countP is_munmap (issued (run w ops hist bo)) = zero_returns ops 0 ∧
    (zero_returns ops 0 = 1 →
      List.countP is_mmap (issued (run w ops hist bo)) = 1 ∧
      List.countP is_munmap (issued (run w ops hist bo)) = 1) := by
  obtain ⟨c1, c2, c3⟩ := run_counts w hq hm ops 0 0 hist bo hbal (by rw [h0]; rfl)
  have e : zero_leaves ops 0 = zero_returns ops 0 := by
    have t := transitions_balance ops 0 0 hbal
    simpa using t
  rw [e] at c1 c2
  exact ⟨c1, c2, c3, fun h1 => ⟨c1.trans h1, c3.trans h1⟩⟩

/-- Instance of C16 (amended): map, map, unmap, map, unmap, unmap returns to 0
only at the end, so one `mmap` and one `munmap` occur. -/
theorem interleaved_map_unmap_counts_witness :
    List.countP is_mmap (issued (run good_world
      [MapOp.map 1, MapOp.map 0, MapOp.unmap, MapOp.map 1, MapOp.unmap, MapOp.unmap] []
      sample_bo)) = 1 ∧
    List.countP is_munmap (issued (run good_world
      [MapOp.map 1, MapOp.map 0, MapOp.unmap, MapOp.map 1, MapOp.unmap, MapOp.unmap] []
      sample_bo)) = 1 :=
  (interleaved_map_unmap_counts good_world [] sample_bo
    [MapOp.map 1, MapOp.map 0, MapOp.unmap, MapOp.map 1, MapOp.unmap, MapOp.unmap]
    rfl (by decide) (fun _ => rfl) (fun _ => ⟨65536, rfl⟩)).2.2.2 (by decide)

/-- C17: for every object with `map_count = 0`, if a first `bo_map` fails, be it
that the device query answers nonzero or that `mmap` returns `MAP_FAILED`, then
a second `bo_map` on the same object, with no `bo_unmap` in between, returns 0
without issuing any call and leaves `map_count = 2` and `ptr = NULL`. -/
theorem bo_map_retry_after_failure (w : World) (hist : List Call) (bo : radeon_bo_gem)
    (write1 write2 : Int) (h0 : bo.map_count = 0)
    (hfail :
      (w.gem_mmap (hist ++ [Call.gem_mmap (w.bom_mem bo.base.bom).fd bo.base.handle 0
        bo.base.size])).r ≠ 0 ∨
      ((w.gem_mmap (hist ++ [Call.gem_mmap (w.bom_mem bo.base.bom).fd bo.base.handle 0
        bo.base.size])).r = 0 ∧
        ∃ errno, w.mmap (hist ++ [Call.gem_mmap (w.bom_mem bo.base.bom).fd bo.base.handle 0
            bo.base.size, Call.mmap 0 bo.base.size (PROT_READ ||| PROT_WRITE) MAP_SHARED
              (w.bom_mem bo.base.bom).fd
              (w.gem_mmap (hist ++ [Call.gem_mmap (w.bom_mem bo.base.bom).fd bo.base.handle 0
                bo.base.size])).addr_ptr]) = MmapResult.MAP_FAILED errno)) :
    (bo_map w hist bo write1).bo.map_count = 1 ∧
    (bo_map w hist bo write1).bo.base.ptr = 0 ∧
    (bo_map w (hist ++ (bo_map w hist bo write1).calls) (bo_map w hist bo write1).bo write2).ret
      = 0 ∧
    (bo_map w (hist ++ (bo_map w hist bo write1).calls) (bo_map w hist bo write1).bo write2).calls
      = [] ∧
    (bo_map w (hist ++ (bo_map w hist bo write1).calls) (bo_map w hist bo write1).bo
      write2).bo.map_count = 2 ∧
    (bo_map w (hist ++ (bo_map w hist bo write1).calls) (bo_map w hist bo write1).bo
      write2).bo.base.ptr = 0 := by
  have hfirst : (bo_map w hist bo write1).bo =
      { bo with map_count := 1, base := { bo.base with ptr := 0 } } := by
    rcases hfail with hr | ⟨hr, e, hm⟩
    · rw [bo_map_query_fails w hist bo write1 h0 hr]
    · rw [bo_map_mmap_fails w hist bo write1 e h0 hr hm]
  have hne : (bo_map w hist bo write1).bo.map_count ≠ 0 := by
    rw [hfirst]
    exact one_ne_zero
  rw [bo_map_nested w _ _ write2 hne, hfirst]
  exact ⟨rfl, rfl, rfl, rfl, rfl, rfl⟩

/-- Instance of C17 on `sample_bo`: the query fails in `query_fails`, and the
retry reports success although nothing is mapped. -/
theorem bo_map_retry_after_failure_witness :
    (bo_map query_fails [] sample_bo 1).ret = -22 ∧
    (bo_map query_fails ([] ++ (bo_map query_fails [] sample_bo 1).calls)
      (bo_map query_fails [] sample_bo 1).bo 1).ret = 0 ∧
    (bo_map query_fails ([] ++ (bo_map query_fails [] sample_bo 1).calls)
      (bo_map query_fails [] sample_bo 1).bo 1).bo.map_count = 2 ∧
    (bo_map query_fails ([] ++ (bo_map query_fails [] sample_bo 1).calls)
      (bo_map query_fails [] sample_bo 1).bo 1).bo.base.ptr = 0 :=
  have h := bo_map_retry_after_failure query_fails [] sample_bo 1 1 rfl (Or.inl (by decide))
  ⟨by decide, h.2.2.1, h.2.2.2.2.1, h.2.2.2.2.2⟩

theorem bo_map_same_identity (w : World) (hist : List Call) (bo : radeon_bo_gem) (write : Int) :
    same_identity (bo_map w hist bo write).bo bo := by
  by_cases h0 : bo.map_count = 0
  · by_cases hr : (w.gem_mmap (hist ++ [Call.gem_mmap (w.bom_mem bo.base.bom).fd
        bo.base.handle 0 bo.base.size])).r = 0
    · cases hm : w.mmap (hist ++ [Call.gem_mmap (w.bom_mem bo.base.bom).fd bo.base.handle 0
          bo.base.size, Call.mmap 0 bo.base.size (PROT_READ ||| PROT_WRITE) MAP_SHARED
            (w.bom_mem bo.base.bom).fd
            (w.gem_mmap (hist ++ [Call.gem_mmap (w.bom_mem bo.base.bom).fd bo.base.handle 0
              bo.base.size])).addr_ptr]) with
      | ok p =>
        rw [bo_map_first_ok w hist bo write p h0 hr hm]
        exact ⟨rfl, rfl, rfl, rfl, rfl, rfl, rfl, rfl⟩
      | MAP_FAILED e =>
        rw [bo_map_mmap_fails w hist bo write e h0 hr hm]
        exact ⟨rfl, rfl, rfl, rfl, rfl, rfl, rfl, rfl⟩
    · rw [bo_map_query_fails w hist bo write h0 hr]
      exact ⟨rfl, rfl, rfl, rfl, rfl, rfl, rfl, rfl⟩
  · rw [bo_map_nested w hist bo write h0]
    exact ⟨rfl, rfl, rfl, rfl, rfl, rfl, rfl, rfl⟩

theorem bo_unmap_same_identity (bo : radeon_bo_gem) : same_identity (bo_unmap bo).bo bo := by
  rcases lt_or_le 1 bo.map_count with h | h
  · rw [bo_unmap_nested bo h]
    exact ⟨rfl, rfl, rfl, rfl, rfl, rfl, rfl, rfl⟩
  · rw [bo_unmap_last bo h]
    exact ⟨rfl, rfl, rfl, rfl, rfl, rfl, rfl, rfl⟩

/-- C18: for every object and every device behaviour, `bo_map` and `bo_unmap`
leave kernel handle, global name, size, alignment, domains, flags, owning manager
and reference count unchanged, so they modify only `map_count` and `ptr`;
`bo_wait`, whenever it returns, and `radeon_gem_set_domain` leave the whole
object unchanged and return the status of their last device call unchanged. -/
theorem operations_keep_identity (w : World) (hist : List Call) (bo : radeon_bo_gem)
    (write : Int) (fuel read_domains write_domain : Nat) :
    same_identity (bo_map w hist bo write).bo bo ∧
    same_identity (bo_unmap bo).bo bo ∧
    (∀ res, bo_wait w fuel hist bo = some res →
      res.bo = bo ∧ res.ret = w.gem_wait_idle (hist ++ res.calls)) ∧
    (radeon_gem_set_domain w hist bo read_domains write_domain).bo = bo ∧
    (radeon_gem_set_domain w hist bo read_domains write_domain).ret =
      w.gem_set_domain
        (hist ++ (radeon_gem_set_domain w hist bo read_domains write_domain).calls) ∧
    (radeon_gem_set_domain w hist bo read_domains write_domain).calls =
      [Call.gem_set_domain (w.bom_mem bo.base.bom).fd bo.base.handle read_domains
        write_domain] :=
  ⟨bo_map_same_identity w hist bo write, bo_unmap_same_identity bo,
    fun res h => ⟨(bo_wait_result w fuel hist bo res h).2.2, (bo_wait_result w fuel hist bo res h).2.1⟩,
    rfl, rfl, rfl⟩

/-- Instance of C18: `bo_map` on `sample_bo` changes nothing but `map_count` and
`ptr`, and `bo_wait` with a device that is busy twice returns the object
unchanged together with the device's final status 0. -/
theorem operations_keep_identity_witness :
    same_identity (bo_map good_world [] sample_bo 0).bo sample_bo ∧
    bo_wait busy_twice 3 [] sample_bo =
      some { ret := 0, bo := sample_bo,
             calls := [Call.gem_wait_idle 3 7, Call.gem_wait_idle 3 7, Call.gem_wait_idle 3 7] } ∧
    (0 : Int) = busy_twice.gem_wait_idle
      ([] ++ [Call.gem_wait_idle 3 7, Call.gem_wait_idle 3 7, Call.gem_wait_idle 3 7]) :=
  have hres : bo_wait busy_twice 3 [] sample_bo =
      some { ret := 0, bo := sample_bo,
             calls := [Call.gem_wait_idle 3 7, Call.gem_wait_idle 3 7, Call.gem_wait_idle 3 7] } := by
    decide
  have h := operations_keep_identity busy_twice [] sample_bo 0 3 0 0
  ⟨(operations_keep_identity good_world [] sample_bo 0 3 0 0).1, hres, (h.2.2.1 _ hres).2⟩

/-- C19: mapping-count underflow is not detected.  For an object with
`map_count = 0`, `bo_unmap` returns 0, still issues `munmap(ptr, size)`, and
leaves `map_count = -1` and `ptr = NULL`; a following `bo_map` then returns 0
without issuing any call and leaves `map_count = 0` with `ptr = NULL`. -/
theorem unmap_underflow_goes_unnoticed (w : World) (hist : List Call) (bo : radeon_bo_gem)
    (write : Int) (h0 : bo.map_count = 0) :
    bo_unmap bo =
      { ret := 0,
        bo := { bo with map_count := -1, base := { bo.base with ptr := 0 } },
        calls := [Call.munmap bo.base.ptr bo.base.size] } ∧
    bo_map w (hist ++ (bo_unmap bo).calls) (bo_unmap bo).bo write =
      { ret := 0,
        bo := { bo with map_count := 0, base := { bo.base with ptr := 0 } },
        calls := [] } := by
  have hu : bo_unmap bo =
      { ret := 0,
        bo := { bo with map_count := -1, base := { bo.base with ptr := 0 } },
        calls := [Call.munmap bo.base.ptr bo.base.size] } := by
    rw [bo_unmap_last bo (by omega), h0]
    rfl
  refine ⟨hu, ?_⟩
  rw [hu]
  have hne : ({ bo with map_count := -1, base := { bo.base with ptr := 0 } } :
      radeon_bo_gem).map_count ≠ 0 := by
    show (-1 : Int) ≠ 0
    omega
  rw [bo_map_nested w _ _ write hne]
  rfl

/-- Instance of C19 on `sample_bo`, in a world whose device would reject a real
mapping request. -/
theorem unmap_underflow_goes_unnoticed_witness :
    (bo_unmap sample_bo).ret = 0 ∧
    (bo_unmap sample_bo).calls = [Call.munmap 0 4096] ∧
    (bo_unmap sample_bo).bo.map_count = -1 ∧
    (bo_map query_fails ([] ++ (bo_unmap sample_bo).calls) (bo_unmap sample_bo).bo 1).ret = 0 ∧
    (bo_map query_fails ([] ++ (bo_unmap sample_bo).calls) (bo_unmap sample_bo).bo 1).calls
      = [] ∧
    (bo_map query_fails ([] ++ (bo_unmap sample_bo).calls) (bo_unmap sample_bo).bo
      1).bo.map_count = 0 :=
  have h := unmap_underflow_goes_unnoticed query_fails [] sample_bo 1 rfl
  ⟨congrArg IntResult.ret h.1, congrArg IntResult.calls h.1,
    congrArg (fun r => r.bo.map_count) h.1, congrArg IntResult.ret h.2,
    congrArg IntResult.calls h.2, congrArg (fun r => r.bo.map_count) h.2⟩

end RadeonBoGem
